import Mathlib

/-!
# go-grpc-stream-otel: the duplex chat stream and its tracing

A shallow embedding of `server/main.go` (`chatServer.Chat`) and `client/main.go`
(`main`, `sendMessages`, `receiveMessages`).

The environment is scripted:

* the outcomes of successive `stream.Recv()` calls are a list; when the list is
  used up the next `Recv` has not returned (the caller is blocked in it);
* the outcomes of successive `stream.Send(..)` calls are a stream `Nat → Option GoError`,
  consumed from the front (`none` is a `nil` error);
* the console is the list of lines `scanner.Scan()` delivers, then end of input.

Every call the code makes on the stream, the tracer, the logger and the channel
`waitc` is appended to an event trace, in program order.

The tracing library is a parameter: a `Tracer` with its own state. The recording
tracer `otelTracer` numbers the spans in the order they are started and turns every
operation into an event; `noopTracer` does nothing.

The client runs two goroutines. Each has its program, the events of its function in
order; an execution of the process is an interleaving of the two programs under a
schedule, in which the receiver starts at the `go` statement and `<-waitc` returns
only when `waitc` is closed. No span is handed from one goroutine to the other, so
each goroutine numbers its own spans.
-/

namespace GrpcStreamOtel

/-! ## Data model -/

/-- The message `chat.ChatMessage` with its two fields. -/
structure ChatMessage where
  User : String
  Message : String
deriving DecidableEq, Repr

/-- A Go `error` value that is not `nil`: the sentinel `io.EOF`, or any other error,
identified by its text. -/
inductive GoError where
  | EOF
  | other (text : String)
deriving DecidableEq, Repr

/-- The method `err.Error()`, as printed by `%v`. -/
def GoError.Error : GoError → String
  | .EOF => "EOF"
  | .other text => text

/-- One outcome of `stream.Recv()`: a message with a `nil` error, or an error. -/
inductive RecvOutcome where
  | msg (m : ChatMessage)
  | fail (err : GoError)
deriving DecidableEq, Repr

/-- The parent context handed to `Tracer.Start`. -/
inductive Ctx where
  | background
  | streamContext
deriving DecidableEq, Repr

/-- A span handle. -/
abbrev Span := Nat

/-- What a tracer does observably. -/
inductive SpanEvent where
  | start (span : Span) (tracer : String) (ctx : Ctx) (name : String)
  | setAttributes (span : Span) (key value : String)
  | recordError (span : Span) (err : GoError)
  | finish (span : Span)
deriving DecidableEq, Repr

/-- The events of a run, in program order. -/
inductive Event where
  | span (e : SpanEvent)
  | recv (r : RecvOutcome)
  | send (m : ChatMessage) (res : Option GoError)
  | log (line : String)
  | scan (line : Option String)
  | openStream (res : Option GoError)
  | closeSend (res : Option GoError)
  | makeWaitc
  | go
  | closeWaitc
  | awaitWaitc
  | fatal
  | connClose
  | tpShutdown
deriving DecidableEq, Repr

/-- How far a function got: it returned (with its error value, `none` for `nil`),
or it is blocked in a call that has not returned. -/
inductive Outcome where
  | returned (err : Option GoError)
  | blocked
deriving DecidableEq, Repr

/-- An implementation of the tracing interface (`trace.Tracer`, `trace.Span`) with
internal state `σ`. Each operation updates the state and tells what it did. -/
structure Tracer (σ : Type) where
  Start : String → Ctx → String → σ → Span × σ × List SpanEvent
  SetAttributes : Span → String → String → σ → σ × List SpanEvent
  RecordError : Span → GoError → σ → σ × List SpanEvent
  End : Span → σ → σ × List SpanEvent

/-- The recording tracer: spans are numbered in the order they are started and every
operation is one event. Its state is the number of the next span. -/
def otelTracer : Tracer Nat where
  Start := fun tracer ctx name n => (n, n + 1, [SpanEvent.start n tracer ctx name])
  SetAttributes := fun s key value n => (n, [SpanEvent.setAttributes s key value])
  RecordError := fun s err n => (n, [SpanEvent.recordError s err])
  End := fun s n => (n, [SpanEvent.finish s])

/-- The tracer whose operations do nothing. -/
def noopTracer : Tracer Unit where
  Start := fun _ _ _ _ => (0, (), [])
  SetAttributes := fun _ _ _ _ => ((), [])
  RecordError := fun _ _ _ => ((), [])
  End := fun _ _ => ((), [])

/-- The events of a tracer operation, as events of the run. -/
def spanEvents (evs : List SpanEvent) : List Event := evs.map Event.span

/-- The attribute key of `semconv.EnduserID`. -/
def enduserID : String := "enduser.id"

/-! ## Server: `chatServer.Chat` -/

/-- The reply built at `server/main.go:84-87`. -/
def echoReply (msg : ChatMessage) : ChatMessage :=
  { User := "Server", Message := "Echo: " ++ msg.Message }

/-- The `for` loop of `chatServer.Chat` (`server/main.go:65-95`): the result is the
outcome of the loop, the tracer state and the events from this point on. -/
def ChatLoop {σ : Type} (T : Tracer σ) (span : Span) :
    List RecvOutcome → (Nat → Option GoError) → σ → Outcome × σ × List Event
  | [], _, ts => (Outcome.blocked, ts, [])
  | RecvOutcome.fail err :: _, _, ts =>
      if err = GoError.EOF then
        (Outcome.returned none, ts,
          [Event.recv (RecvOutcome.fail err), Event.log "Client disconnected"])
      else
        let r := T.RecordError span err ts
        (Outcome.returned (some err), r.1,
          Event.recv (RecvOutcome.fail err) :: spanEvents r.2
            ++ [Event.log ("Error receiving message: " ++ err.Error)])
  | RecvOutcome.msg msg :: rest, sendRes, ts =>
      let s := T.Start "ChatService" Ctx.background "ReceiveMessage" ts
      let msgSpan := s.1
      let a := T.SetAttributes msgSpan enduserID msg.User s.2.1
      let head := Event.recv (RecvOutcome.msg msg) :: spanEvents s.2.2 ++ spanEvents a.2
        ++ [Event.log ("Received message from " ++ msg.User ++ ": " ++ msg.Message)]
      match sendRes 0 with
      | some err =>
          let r := T.RecordError msgSpan err a.1
          let e := T.End msgSpan r.1
          (Outcome.returned (some err), e.1,
            head ++ Event.send (echoReply msg) (some err) :: spanEvents r.2
              ++ Event.log ("Error sending message: " ++ err.Error) :: spanEvents e.2)
      | none =>
          let e := T.End msgSpan a.1
          let next := ChatLoop T span rest (fun k => sendRes (k + 1)) e.1
          (next.1, next.2.1,
            head ++ Event.send (echoReply msg) none :: spanEvents e.2 ++ next.2.2)

/-- The handler `chatServer.Chat` (`server/main.go:59-96`). The deferred `span.End()`
runs when the loop returns. -/
def Chat {σ : Type} (T : Tracer σ) (recvs : List RecvOutcome)
    (sendRes : Nat → Option GoError) (ts : σ) : Outcome × σ × List Event :=
  let s := T.Start "ChatService" Ctx.streamContext "Chat" ts
  let span := s.1
  let body := ChatLoop T span recvs sendRes s.2.1
  let head := spanEvents s.2.2 ++ Event.log "Client connected for chat" :: body.2.2
  match body.1 with
  | Outcome.returned err =>
      let e := T.End span body.2.1
      (Outcome.returned err, e.1, head ++ spanEvents e.2)
  | Outcome.blocked => (Outcome.blocked, body.2.1, head)

/-! ## Client: `sendMessages`, `receiveMessages`, `main` -/

/-- The prompt printed at `client/main.go:103`. -/
def promptLine : String := "Enter message (or \x27exit\x27 to quit): "

/-- The function `sendMessages` (`client/main.go:100-128`): `lines` is what
`scanner.Scan()` delivers before end of input. The result is the tracer state and
the events of the call. -/
def sendMessages {σ : Type} (T : Tracer σ) :
    List String → (Nat → Option GoError) → σ → σ × List Event
  | [], _, ts => (ts, [Event.log promptLine, Event.scan none])
  | text :: rest, sendRes, ts =>
      if text = "exit" then
        (ts, [Event.log promptLine, Event.scan (some text)])
      else
        let s := T.Start "ChatClient" Ctx.background "SendMessage" ts
        let msgSpan := s.1
        let a := T.SetAttributes msgSpan enduserID "ClientUser" s.2.1
        let head := Event.log promptLine :: Event.scan (some text) :: spanEvents s.2.2
          ++ spanEvents a.2
        let m : ChatMessage := { User := "ClientUser", Message := text }
        match sendRes 0 with
        | some err =>
            let r := T.RecordError msgSpan err a.1
            let e := T.End msgSpan r.1
            (e.1, head ++ Event.send m (some err) :: spanEvents r.2
              ++ Event.log ("Error sending message: " ++ err.Error) :: spanEvents e.2)
        | none =>
            let e := T.End msgSpan a.1
            let next := sendMessages T rest (fun k => sendRes (k + 1)) e.1
            (next.1, head ++ Event.send m none :: spanEvents e.2 ++ next.2)

/-- The `for` loop of `receiveMessages` (`client/main.go:132-150`): `true` when the
loop was left by `break`, `false` when it is blocked in `Recv`. -/
def receiveLoop {σ : Type} (T : Tracer σ) : List RecvOutcome → σ → Bool × σ × List Event
  | [], ts => (false, ts, [])
  | RecvOutcome.fail err :: _, ts =>
      if err = GoError.EOF then
        (true, ts, [Event.recv (RecvOutcome.fail err), Event.log "Server closed the stream"])
      else
        (true, ts, [Event.recv (RecvOutcome.fail err),
          Event.log ("Error receiving message: " ++ err.Error)])
  | RecvOutcome.msg msg :: rest, ts =>
      let s := T.Start "ChatClient" Ctx.background "ReceiveMessage" ts
      let msgSpan := s.1
      let a := T.SetAttributes msgSpan enduserID msg.User s.2.1
      let e := T.End msgSpan a.1
      let next := receiveLoop T rest e.1
      (next.1, next.2.1,
        Event.recv (RecvOutcome.msg msg) :: spanEvents s.2.2 ++ spanEvents a.2
          ++ Event.log ("Received message from " ++ msg.User ++ ": " ++ msg.Message)
          :: spanEvents e.2 ++ next.2.2)

/-- The function `receiveMessages` (`client/main.go:130-151`). The deferred
`close(waitc)` runs when the loop is left. -/
def receiveMessages {σ : Type} (T : Tracer σ) (recvs : List RecvOutcome) (ts : σ) :
    Bool × σ × List Event :=
  let body := receiveLoop T recvs ts
  if body.1 then (true, body.2.1, body.2.2 ++ [Event.closeWaitc])
  else (false, body.2.1, body.2.2)

/-- The events of the main goroutine of the client from `client/main.go:71` on, in
program order: `openRes` is the error of `client.Chat(ctx)`, `closeRes` that of
`stream.CloseSend()`. `log.Fatalf` logs and exits the process, so nothing follows it.
The event `awaitWaitc` is the receive `<-waitc` returning; what follows it are the
deferred calls run when `main` returns. -/
def main {σ : Type} (T : Tracer σ) (openRes : Option GoError) (lines : List String)
    (sendRes : Nat → Option GoError) (closeRes : Option GoError) (ts : σ) : List Event :=
  let s := T.Start "ChatClient" Ctx.background "Chat" ts
  let span := s.1
  let head := spanEvents s.2.2 ++ [Event.openStream openRes]
  match openRes with
  | some err =>
      let r := T.RecordError span err s.2.1
      head ++ spanEvents r.2 ++ [Event.log ("Error creating stream: " ++ err.Error), Event.fatal]
  | none =>
      let e := T.End span s.2.1
      let snd := sendMessages T lines sendRes e.1
      let closeLog := match closeRes with
        | some err => [Event.log ("Error closing send stream: " ++ err.Error)]
        | none => []
      head ++ spanEvents e.2 ++ [Event.makeWaitc, Event.go] ++ snd.2
        ++ Event.closeSend closeRes :: closeLog
        ++ [Event.awaitWaitc, Event.connClose, Event.tpShutdown]

/-- The two goroutines of the client. -/
inductive Tid where
  | main
  | receiver
deriving DecidableEq, Repr

/-- One execution of the client process under a schedule. Each goroutine contributes
its events in program order; the schedule says whose turn it is. The receiver runs
only once the `go` statement has been executed; `<-waitc` returns only once `waitc`
is closed; when the main goroutine has run its last event the process is over. A turn
given to a goroutine that cannot move is lost. -/
def interleave : List Tid → List Event → List Event → Bool → Bool → List (Tid × Event)
  | [], _, _, _, _ => []
  | _ :: _, [], _, _, _ => []
  | Tid.main :: sched, m :: ms, rs, spawned, closed =>
      if m = Event.awaitWaitc ∧ closed = false then interleave sched (m :: ms) rs spawned closed
      else (Tid.main, m) :: interleave sched ms rs (spawned || decide (m = Event.go)) closed
  | Tid.receiver :: sched, m :: ms, [], spawned, closed =>
      interleave sched (m :: ms) [] spawned closed
  | Tid.receiver :: sched, m :: ms, r :: rs, spawned, closed =>
      if spawned then
        (Tid.receiver, r) :: interleave sched (m :: ms) rs spawned
          (closed || decide (r = Event.closeWaitc))
      else interleave sched (m :: ms) (r :: rs) spawned closed

/-- The client process: the main goroutine and the goroutine `receiveMessages` it
starts, each numbering its own spans, run under a schedule. -/
def client (sched : List Tid) (openRes : Option GoError) (lines : List String)
    (sendRes : Nat → Option GoError) (closeRes : Option GoError)
    (recvs : List RecvOutcome) : List (Tid × Event) :=
  interleave sched (main otelTracer openRes lines sendRes closeRes 0)
    (receiveMessages otelTracer recvs 0).2.2 false false

/-! ## Reading a trace -/

/-! ### Calls on the stream -/

/-- The calls on the stream: `Recv` and `Send`. -/
def Event.isStreamOp : Event → Bool
  | Event.recv _ => true
  | Event.send _ _ => true
  | _ => false

/-- The `Recv` and `Send` calls of a trace, in order. -/
def streamOps (tr : List Event) : List Event := tr.filter Event.isStreamOp

/-- A stream call that ends the stream for the caller: `Recv` giving an error
(`io.EOF` included) or `Send` giving an error. -/
def Event.isTerminal : Event → Bool
  | Event.recv (RecvOutcome.fail _) => true
  | Event.send _ (some _) => true
  | _ => false

/-! ### Spans in a trace -/

/-- The event starts the span `s`. -/
def Event.startsSpan (s : Span) : Event → Bool
  | Event.span (SpanEvent.start s2 _ _ _) => decide (s2 = s)
  | _ => false

/-- The event ends the span `s`. -/
def Event.endsSpan (s : Span) : Event → Bool
  | Event.span (SpanEvent.finish s2) => decide (s2 = s)
  | _ => false

/-- The event records an error on some span. -/
def Event.isRecordError : Event → Bool
  | Event.span (SpanEvent.recordError _ _) => true
  | _ => false

/-- How many times the span `s` is started in a trace. -/
def startsOf (s : Span) (tr : List Event) : Nat := tr.countP (Event.startsSpan s)

/-- How many times the span `s` is ended in a trace. -/
def endsOf (s : Span) (tr : List Event) : Nat := tr.countP (Event.endsSpan s)

/-- At every point of the trace the span `s` has been ended at most `d` times more
than it has been started; with `d = 0`, it is never ended before it is started. -/
def EndsWithin (d : Nat) (s : Span) (tr : List Event) : Prop :=
  ∀ k, endsOf s (tr.take k) ≤ d + startsOf s (tr.take k)

/-- The event starts a span. -/
def Event.isStart : Event → Bool
  | Event.span (SpanEvent.start _ _ _ _) => true
  | _ => false

/-- The event ends a span. -/
def Event.isEnd : Event → Bool
  | Event.span (SpanEvent.finish _) => true
  | _ => false

/-- The number of spans open at the end of a trace: starts less ends. -/
def openSpans (tr : List Event) : Int :=
  (tr.countP Event.isStart : Int) - (tr.countP Event.isEnd : Int)

/-- No event of the trace records an error on a span. -/
def NoRecordError (tr : List Event) : Prop := ∀ ev ∈ tr, ev.isRecordError = false

/-! ### What the client sends and receives -/

/-- The `Send` calls of a trace, in order: the message and the error returned. -/
def sendAttempts (tr : List Event) : List (ChatMessage × Option GoError) :=
  tr.filterMap (fun ev => match ev with
    | Event.send m res => some (m, res)
    | _ => none)

/-- The console lines that precede the first line equal to "exit". -/
def linesBeforeExit (lines : List String) : List String :=
  lines.takeWhile (fun l => decide (l ≠ "exit"))

/-- The event is an operation of the tracer. -/
def Event.isSpan : Event → Bool
  | Event.span _ => true
  | _ => false

/-- The events of a trace that are not operations of the tracer, in order. -/
def plainEvents (tr : List Event) : List Event := tr.filter (fun ev => !ev.isSpan)

/-- The messages of a `Recv` script that precede its first terminal outcome. -/
def leadingMsgs : List RecvOutcome → List ChatMessage
  | RecvOutcome.msg m :: rest => m :: leadingMsgs rest
  | _ => []

/-- The first terminal outcome of a `Recv` script (`io.EOF` or another error), if it
has one. -/
def firstTerminal : List RecvOutcome → Option GoError
  | [] => none
  | RecvOutcome.fail err :: _ => some err
  | RecvOutcome.msg _ :: rest => firstTerminal rest

/-! ### Executions of the client process -/

/-- The events of goroutine `t` in an execution of the client, in order. -/
def eventsOf (t : Tid) (G : List (Tid × Event)) : List Event :=
  (G.filter (fun p => decide (p.1 = t))).map Prod.snd

/-- The event is a call of `stream.CloseSend`. -/
def Event.isCloseSend : Event → Bool
  | Event.closeSend _ => true
  | _ => false

/-- The event is one `sendMessages` can produce: a log line, a console read, a tracer
operation or a `Send`. -/
def Event.isSendUnit : Event → Bool
  | Event.log _ => true
  | Event.scan _ => true
  | Event.span _ => true
  | Event.send _ _ => true
  | _ => false

/-- The span an event of the tracer is about. -/
def Event.spanOf : Event → Option Span
  | Event.span (SpanEvent.start s _ _ _) => some s
  | Event.span (SpanEvent.setAttributes s _ _) => some s
  | Event.span (SpanEvent.recordError s _) => some s
  | Event.span (SpanEvent.finish s) => some s
  | _ => none

/-- The event is a `Recv` that yields an error (`io.EOF` included). -/
def Event.isRecvFail : Event → Bool
  | Event.recv (RecvOutcome.fail _) => true
  | _ => false

/-- What is left of a schedule after the first `k` turns of the main goroutine. -/
def afterMainTurns : Nat → List Tid → List Tid
  | 0, sched => sched
  | _ + 1, [] => []
  | k + 1, Tid.main :: sched => afterMainTurns k sched
  | k + 1, Tid.receiver :: sched => afterMainTurns (k + 1) sched

/-! ### An execution in which the transport drops -/

/-- A schedule that lets the main goroutine run up to `<-waitc`, then the receiver to
its end, then the main goroutine again. -/
def dropSchedule : List Tid :=
  List.replicate 27 Tid.main ++ List.replicate 13 Tid.receiver ++ List.replicate 3 Tid.main

/-- The execution of the client in which three lines are sent and the transport drops
after two of the replies: `Recv` yields two messages and then a transport error. -/
def dropRun : List (Tid × Event) :=
  client dropSchedule none ["a", "b", "c"] (fun _ => none) none
    [RecvOutcome.msg { User := "Server", Message := "Echo: a" },
      RecvOutcome.msg { User := "Server", Message := "Echo: b" },
      RecvOutcome.fail (GoError.other "transport is closing")]

/-! ## Lemmas on traces -/

@[simp] theorem streamOps_nil : streamOps [] = [] := rfl

@[simp] theorem streamOps_append (a b : List Event) :
    streamOps (a ++ b) = streamOps a ++ streamOps b := by
  simp [streamOps]

@[simp] theorem streamOps_spanEvents (evs : List SpanEvent) : streamOps (spanEvents evs) = [] := by
  induction evs with
  | nil => rfl
  | cons e es ih => simp [streamOps, spanEvents, Event.isStreamOp]

@[simp] theorem streamOps_recv (r : RecvOutcome) (tr : List Event) :
    streamOps (Event.recv r :: tr) = Event.recv r :: streamOps tr := by
  simp [streamOps, Event.isStreamOp]

@[simp] theorem streamOps_send (m : ChatMessage) (res : Option GoError) (tr : List Event) :
    streamOps (Event.send m res :: tr) = Event.send m res :: streamOps tr := by
  simp [streamOps, Event.isStreamOp]

@[simp] theorem streamOps_log (line : String) (tr : List Event) :
    streamOps (Event.log line :: tr) = streamOps tr := by
  simp [streamOps, Event.isStreamOp]

@[simp] theorem streamOps_span (e : SpanEvent) (tr : List Event) :
    streamOps (Event.span e :: tr) = streamOps tr := by
  simp [streamOps, Event.isStreamOp]

/-- The stream calls of the loop of `Chat` when the next `Recv` gives a message. -/
theorem ChatLoop_msg_ops {σ : Type} (T : Tracer σ) (span : Span) (m : ChatMessage)
    (rest : List RecvOutcome) (sendRes : Nat → Option GoError) (ts : σ) :
    ∃ ts1, streamOps (ChatLoop T span (RecvOutcome.msg m :: rest) sendRes ts).2.2
        = Event.recv (RecvOutcome.msg m) :: Event.send (echoReply m) (sendRes 0)
          :: (match sendRes 0 with
              | some _ => []
              | none => streamOps (ChatLoop T span rest (fun k => sendRes (k + 1)) ts1).2.2)
      ∧ (ChatLoop T span (RecvOutcome.msg m :: rest) sendRes ts).1
        = (match sendRes 0 with
            | some err => Outcome.returned (some err)
            | none => (ChatLoop T span rest (fun k => sendRes (k + 1)) ts1).1) := by
  cases h : sendRes 0 with
  | some err => exact ⟨ts, by simp [ChatLoop, h]⟩
  | none =>
      refine ⟨(T.End (T.Start "ChatService" Ctx.background "ReceiveMessage" ts).1
        (T.SetAttributes (T.Start "ChatService" Ctx.background "ReceiveMessage" ts).1
          enduserID m.User (T.Start "ChatService" Ctx.background "ReceiveMessage" ts).2.1).1).1,
        ?_, ?_⟩ <;> simp [ChatLoop, h]

/-- The stream calls of the loop of `Chat` when the next `Recv` gives an error. -/
theorem ChatLoop_fail_ops {σ : Type} (T : Tracer σ) (span : Span) (err : GoError)
    (rest : List RecvOutcome) (sendRes : Nat → Option GoError) (ts : σ) :
    streamOps (ChatLoop T span (RecvOutcome.fail err :: rest) sendRes ts).2.2
        = [Event.recv (RecvOutcome.fail err)]
      ∧ (ChatLoop T span (RecvOutcome.fail err :: rest) sendRes ts).1
        = Outcome.returned (if err = GoError.EOF then none else some err) := by
  by_cases h : err = GoError.EOF <;> simp [ChatLoop, h]

/-- The stream calls and the outcome of `Chat` are those of its loop. -/
theorem Chat_ops {σ : Type} (T : Tracer σ) (recvs : List RecvOutcome)
    (sendRes : Nat → Option GoError) (ts : σ) :
    ∃ span ts1, streamOps (Chat T recvs sendRes ts).2.2
        = streamOps (ChatLoop T span recvs sendRes ts1).2.2
      ∧ (Chat T recvs sendRes ts).1 = (ChatLoop T span recvs sendRes ts1).1 := by
  refine ⟨(T.Start "ChatService" Ctx.streamContext "Chat" ts).1,
    (T.Start "ChatService" Ctx.streamContext "Chat" ts).2.1, ?_, ?_⟩
  · simp only [Chat]
    split <;> simp
  · simp only [Chat]
    split <;> simp_all

/-- In the loop of `Chat` every received message is answered at once by its echo. -/
theorem ChatLoop_recv_then_echo {σ : Type} (T : Tracer σ) (span : Span) :
    ∀ (recvs : List RecvOutcome) (sendRes : Nat → Option GoError) (ts : σ) (i : Nat)
      (m : ChatMessage),
      (streamOps (ChatLoop T span recvs sendRes ts).2.2)[i]? = some (Event.recv (RecvOutcome.msg m)) →
      ∃ res, (streamOps (ChatLoop T span recvs sendRes ts).2.2)[i + 1]?
        = some (Event.send (echoReply m) res) := by
  intro recvs
  induction recvs with
  | nil => intro sendRes ts i m h; simp [ChatLoop] at h
  | cons r rest ih =>
      intro sendRes ts i m h
      cases r with
      | fail err =>
          rw [(ChatLoop_fail_ops T span err rest sendRes ts).1] at h
          cases i with
          | zero => simp at h
          | succ j => simp at h
      | msg m0 =>
          obtain ⟨ts1, hops, -⟩ := ChatLoop_msg_ops T span m0 rest sendRes ts
          rw [hops] at h ⊢
          match i, h with
          | 0, h =>
              simp at h
              subst h
              exact ⟨sendRes 0, by simp⟩
          | 1, h => simp at h
          | j + 2, h =>
              cases hs : sendRes 0 with
              | some err => simp [hs] at h
              | none =>
                  simp only [hs, List.getElem?_cons_succ] at h ⊢
                  exact ih _ ts1 j m h

/-- In the loop of `Chat` every `Send` is the echo of the message received just before. -/
theorem ChatLoop_send_is_echo {σ : Type} (T : Tracer σ) (span : Span) :
    ∀ (recvs : List RecvOutcome) (sendRes : Nat → Option GoError) (ts : σ) (j : Nat)
      (reply : ChatMessage) (res : Option GoError),
      (streamOps (ChatLoop T span recvs sendRes ts).2.2)[j]? = some (Event.send reply res) →
      ∃ i m, j = i + 1 ∧ reply = echoReply m
        ∧ (streamOps (ChatLoop T span recvs sendRes ts).2.2)[i]?
          = some (Event.recv (RecvOutcome.msg m)) := by
  intro recvs
  induction recvs with
  | nil => intro sendRes ts j reply res h; simp [ChatLoop] at h
  | cons r rest ih =>
      intro sendRes ts j reply res h
      cases r with
      | fail err =>
          rw [(ChatLoop_fail_ops T span err rest sendRes ts).1] at h
          cases j with
          | zero => simp at h
          | succ j => simp at h
      | msg m0 =>
          obtain ⟨ts1, hops, -⟩ := ChatLoop_msg_ops T span m0 rest sendRes ts
          rw [hops] at h ⊢
          match j, h with
          | 0, h => simp at h
          | 1, h =>
              simp at h
              exact ⟨0, m0, rfl, h.1.symm, by simp⟩
          | j + 2, h =>
              cases hs : sendRes 0 with
              | some err => simp [hs] at h
              | none =>
                  simp only [hs, List.getElem?_cons_succ] at h ⊢
                  obtain ⟨i, m, hj, hr, hi⟩ := ih _ ts1 j reply res h
                  exact ⟨i + 2, m, by omega, hr, by simpa using hi⟩

/-- The loop of `Chat` on `N` messages followed by `io.EOF`, all sends succeeding. -/
theorem ChatLoop_echo_all {σ : Type} (T : Tracer σ) (span : Span) :
    ∀ (msgs : List ChatMessage) (sendRes : Nat → Option GoError) (ts : σ),
      (∀ k, k < msgs.length → sendRes k = none) →
      (ChatLoop T span (msgs.map RecvOutcome.msg ++ [RecvOutcome.fail GoError.EOF]) sendRes ts).1
          = Outcome.returned none
        ∧ streamOps
            (ChatLoop T span (msgs.map RecvOutcome.msg ++ [RecvOutcome.fail GoError.EOF])
              sendRes ts).2.2
          = msgs.flatMap (fun m => [Event.recv (RecvOutcome.msg m), Event.send (echoReply m) none])
            ++ [Event.recv (RecvOutcome.fail GoError.EOF)] := by
  intro msgs
  induction msgs with
  | nil =>
      intro sendRes ts _
      have h := ChatLoop_fail_ops T span GoError.EOF [] sendRes ts
      simpa using ⟨h.2, h.1⟩
  | cons m rest ih =>
      intro sendRes ts hs
      have h0 : sendRes 0 = none := hs 0 (by simp)
      obtain ⟨ts1, hops, hout⟩ := ChatLoop_msg_ops T span m
        (rest.map RecvOutcome.msg ++ [RecvOutcome.fail GoError.EOF]) sendRes ts
      have hrest := ih (fun k => sendRes (k + 1)) ts1
        (fun k hk => hs (k + 1) (by simpa using hk))
      simp only [h0] at hops hout
      simp only [List.map_cons, List.cons_append, List.flatMap_cons]
      rw [hops, hout, hrest.1, hrest.2]
      simp

/-- What the loop of `Chat` does around its terminal stream call. -/
theorem ChatLoop_terminal {σ : Type} (T : Tracer σ) (span : Span) :
    ∀ (recvs : List RecvOutcome) (sendRes : Nat → Option GoError) (ts : σ),
      (∀ (i : Nat) (ev : Event),
          (streamOps (ChatLoop T span recvs sendRes ts).2.2)[i]? = some ev →
          ev.isTerminal = true →
          ∀ j : Nat, i < j → (streamOps (ChatLoop T span recvs sendRes ts).2.2)[j]? = none)
      ∧ ((ChatLoop T span recvs sendRes ts).1 = Outcome.returned none ↔
          (streamOps (ChatLoop T span recvs sendRes ts).2.2).getLast?
            = some (Event.recv (RecvOutcome.fail GoError.EOF)))
      ∧ (∀ e, (ChatLoop T span recvs sendRes ts).1 = Outcome.returned (some e) ↔
          ((streamOps (ChatLoop T span recvs sendRes ts).2.2).getLast?
              = some (Event.recv (RecvOutcome.fail e)) ∧ e ≠ GoError.EOF)
          ∨ ∃ m, (streamOps (ChatLoop T span recvs sendRes ts).2.2).getLast?
              = some (Event.send m (some e)))
      ∧ ((ChatLoop T span recvs sendRes ts).1 = Outcome.blocked ↔
          ∀ ev ∈ streamOps (ChatLoop T span recvs sendRes ts).2.2, ev.isTerminal = false) := by
  intro recvs
  induction recvs with
  | nil => intro sendRes ts; simp [ChatLoop]
  | cons r rest ih =>
      intro sendRes ts
      cases r with
      | fail err =>
          obtain ⟨hops, hout⟩ := ChatLoop_fail_ops T span err rest sendRes ts
          rw [hops, hout]
          refine ⟨?_, ?_, ?_, ?_⟩
          · intro i ev _ _ j hj
            cases j with
            | zero => omega
            | succ j => simp
          · by_cases h : err = GoError.EOF <;> simp [h]
          · intro e
            by_cases h : err = GoError.EOF
            · simp [h]
              intro h1
              exact h1.symm
            · simp [h]
              intro h1
              subst h1
              exact h
          · simp [Event.isTerminal]
      | msg m0 =>
          obtain ⟨ts1, hops, hout⟩ := ChatLoop_msg_ops T span m0 rest sendRes ts
          rw [hops, hout]
          cases hs : sendRes 0 with
          | some err =>
              refine ⟨?_, ?_, ?_, ?_⟩
              · intro i ev hi hev j hj
                match i, hi with
                | 0, hi => simp at hi; subst hi; simp [Event.isTerminal] at hev
                | i + 1, _ =>
                    match j, hj with
                    | j + 2, _ => simp
              · simp
              · intro e
                simp
              · simp [Event.isTerminal]
          | none =>
              obtain ⟨ih1, ih2, ih3, ih4⟩ := ih (fun k => sendRes (k + 1)) ts1
              generalize (ChatLoop T span rest (fun k => sendRes (k + 1)) ts1).1 = out at *
              generalize streamOps (ChatLoop T span rest (fun k => sendRes (k + 1)) ts1).2.2
                = tail at *
              refine ⟨?_, ?_, ?_, ?_⟩
              · intro i ev hi hev j hj
                match i, hi with
                | 0, hi => simp at hi; subst hi; simp [Event.isTerminal] at hev
                | 1, hi => simp at hi; subst hi; simp [Event.isTerminal] at hev
                | i + 2, hi =>
                    match j, hj with
                    | j + 2, hj =>
                        simp only [List.getElem?_cons_succ] at hi ⊢
                        exact ih1 i ev hi hev j (by omega)
              · cases tail with
                | nil => simpa using ih2
                | cons c t => simpa using ih2
              · intro e
                cases tail with
                | nil => simpa using ih3 e
                | cons c t => simpa using ih3 e
              · simpa [Event.isTerminal] using ih4

/-- The loop of `Chat` on a script that starts with messages whose `Send`s succeed:
each message is received and echoed in turn, and the loop goes on with the rest of the
script and of the `Send` outcomes. -/
theorem ChatLoop_leading {σ : Type} (T : Tracer σ) (span : Span) :
    ∀ (msgs : List ChatMessage) (tail : List RecvOutcome) (sendRes : Nat → Option GoError)
      (ts : σ),
      (∀ k, k < msgs.length → sendRes k = none) →
      ∃ ts1,
        (ChatLoop T span (msgs.map RecvOutcome.msg ++ tail) sendRes ts).1
          = (ChatLoop T span tail (fun k => sendRes (k + msgs.length)) ts1).1
        ∧ streamOps (ChatLoop T span (msgs.map RecvOutcome.msg ++ tail) sendRes ts).2.2
          = msgs.flatMap (fun m => [Event.recv (RecvOutcome.msg m),
              Event.send (echoReply m) none])
            ++ streamOps (ChatLoop T span tail (fun k => sendRes (k + msgs.length)) ts1).2.2 := by
  intro msgs
  induction msgs with
  | nil =>
      intro tail sendRes ts _
      exact ⟨ts, by simp, by simp⟩
  | cons m rest ih =>
      intro tail sendRes ts hs
      have h0 : sendRes 0 = none := hs 0 (by simp)
      obtain ⟨ts1, hops, hout⟩ := ChatLoop_msg_ops T span m
        (rest.map RecvOutcome.msg ++ tail) sendRes ts
      obtain ⟨ts2, iout, iops⟩ := ih tail (fun k => sendRes (k + 1)) ts1
        (fun k hk => hs (k + 1) (by simpa using hk))
      simp only [h0] at hops hout
      refine ⟨ts2, ?_, ?_⟩
      · simp only [List.map_cons, List.cons_append, List.length_cons]
        rw [hout, iout]
        rfl
      · simp only [List.map_cons, List.cons_append, List.length_cons, List.flatMap_cons]
        rw [hops, iops]
        simp only [List.cons_append, List.nil_append]
        rfl

/-- The outcome and the stream calls of the loop of `Chat` are the same under any two
tracers, whatever their states and whatever span the loop was given. -/
theorem ChatLoop_tracer_independent {σ₁ σ₂ : Type} (T₁ : Tracer σ₁) (T₂ : Tracer σ₂)
    (span₁ span₂ : Span) :
    ∀ (recvs : List RecvOutcome) (sendRes : Nat → Option GoError) (ts₁ : σ₁) (ts₂ : σ₂),
      (ChatLoop T₁ span₁ recvs sendRes ts₁).1 = (ChatLoop T₂ span₂ recvs sendRes ts₂).1
      ∧ streamOps (ChatLoop T₁ span₁ recvs sendRes ts₁).2.2
        = streamOps (ChatLoop T₂ span₂ recvs sendRes ts₂).2.2 := by
  intro recvs
  induction recvs with
  | nil => intro sendRes ts₁ ts₂; simp [ChatLoop]
  | cons r rest ih =>
      intro sendRes ts₁ ts₂
      cases r with
      | fail err =>
          obtain ⟨h1, h2⟩ := ChatLoop_fail_ops T₁ span₁ err rest sendRes ts₁
          obtain ⟨h3, h4⟩ := ChatLoop_fail_ops T₂ span₂ err rest sendRes ts₂
          rw [h1, h2, h3, h4]
          exact ⟨rfl, rfl⟩
      | msg m =>
          obtain ⟨a, h1, h2⟩ := ChatLoop_msg_ops T₁ span₁ m rest sendRes ts₁
          obtain ⟨b, h3, h4⟩ := ChatLoop_msg_ops T₂ span₂ m rest sendRes ts₂
          rw [h1, h2, h3, h4]
          cases hs : sendRes 0 with
          | some err => exact ⟨rfl, rfl⟩
          | none =>
              obtain ⟨i1, i2⟩ := ih (fun k => sendRes (k + 1)) a b
              exact ⟨i1, by simp only [i2]⟩

/-- The outcome and the stream calls of `Chat` are the same under any two tracers. -/
theorem Chat_tracer_independent {σ₁ σ₂ : Type} (T₁ : Tracer σ₁) (T₂ : Tracer σ₂)
    (recvs : List RecvOutcome) (sendRes : Nat → Option GoError) (ts₁ : σ₁) (ts₂ : σ₂) :
    (Chat T₁ recvs sendRes ts₁).1 = (Chat T₂ recvs sendRes ts₂).1
      ∧ streamOps (Chat T₁ recvs sendRes ts₁).2.2 = streamOps (Chat T₂ recvs sendRes ts₂).2.2 := by
  obtain ⟨s1, a, h1, h2⟩ := Chat_ops T₁ recvs sendRes ts₁
  obtain ⟨s2, b, h3, h4⟩ := Chat_ops T₂ recvs sendRes ts₂
  rw [h1, h2, h3, h4]
  exact ChatLoop_tracer_independent T₁ T₂ s1 s2 recvs sendRes a b

/-! ## The claims on the server -/

/-- C1: in every run of `Chat`, under any tracer and from any tracer state, each
message `m` received is answered, as the next call on the stream, by a `Send` of
exactly the message with `User = "Server"` and `Message = "Echo: " ++ m.Message`, and
every `Send` of the run is such a reply to the message received just before it. The
reply is a function of `m.Message` alone. -/
theorem C1_reply_is_echo {σ : Type} (T : Tracer σ) (recvs : List RecvOutcome)
    (sendRes : Nat → Option GoError) (ts : σ) :
    (∀ (i : Nat) (m : ChatMessage),
        (streamOps (Chat T recvs sendRes ts).2.2)[i]? = some (Event.recv (RecvOutcome.msg m)) →
        ∃ res, (streamOps (Chat T recvs sendRes ts).2.2)[i + 1]?
          = some (Event.send { User := "Server", Message := "Echo: " ++ m.Message } res))
    ∧ (∀ (j : Nat) (reply : ChatMessage) (res : Option GoError),
        (streamOps (Chat T recvs sendRes ts).2.2)[j]? = some (Event.send reply res) →
        ∃ i m, j = i + 1
          ∧ (streamOps (Chat T recvs sendRes ts).2.2)[i]? = some (Event.recv (RecvOutcome.msg m))
          ∧ reply = { User := "Server", Message := "Echo: " ++ m.Message })
    ∧ (∀ m m2 : ChatMessage, m.Message = m2.Message → echoReply m = echoReply m2) := by
  obtain ⟨span, ts1, hops, -⟩ := Chat_ops T recvs sendRes ts
  rw [hops]
  refine ⟨?_, ?_, ?_⟩
  · intro i m h
    exact ChatLoop_recv_then_echo T span recvs sendRes ts1 i m h
  · intro j reply res h
    obtain ⟨i, m, hj, hr, hi⟩ := ChatLoop_send_is_echo T span recvs sendRes ts1 j reply res h
    exact ⟨i, m, hj, hi, hr⟩
  · intro m m2 h
    simp [echoReply, h]

/-- C2: when `Recv` yields the messages `msgs` and then `io.EOF` and every `Send`
succeeds, `Chat` returns `nil`, and its calls on the stream are, in this order, for
each message its `Recv` followed by the `Send` of its echo, and then the `Recv` that
yields `io.EOF`: one `Send` a message, in the order received, each between the `Recv`
of its message and the next `Recv`. -/
theorem C2_echo_in_order {σ : Type} (T : Tracer σ) (msgs : List ChatMessage)
    (sendRes : Nat → Option GoError) (ts : σ)
    (hsend : ∀ k, k < msgs.length → sendRes k = none) :
    (Chat T (msgs.map RecvOutcome.msg ++ [RecvOutcome.fail GoError.EOF]) sendRes ts).1
        = Outcome.returned none
      ∧ streamOps
          (Chat T (msgs.map RecvOutcome.msg ++ [RecvOutcome.fail GoError.EOF]) sendRes ts).2.2
        = msgs.flatMap (fun m => [Event.recv (RecvOutcome.msg m),
            Event.send { User := "Server", Message := "Echo: " ++ m.Message } none])
          ++ [Event.recv (RecvOutcome.fail GoError.EOF)] := by
  obtain ⟨span, ts1, hops, hout⟩ :=
    Chat_ops T (msgs.map RecvOutcome.msg ++ [RecvOutcome.fail GoError.EOF]) sendRes ts
  rw [hops, hout]
  exact ChatLoop_echo_all T span msgs sendRes ts1 hsend

/-- C2 at the message "hello" followed by `io.EOF`: one `Send`, of "Echo: hello", and
the result `nil`. -/
theorem C2_echo_in_order_witness :
    (∀ k, k < [({ User := "ClientUser", Message := "hello" } : ChatMessage)].length →
        (fun _ : Nat => (none : Option GoError)) k = none)
      ∧ (Chat otelTracer
          [RecvOutcome.msg { User := "ClientUser", Message := "hello" },
            RecvOutcome.fail GoError.EOF] (fun _ => none) 0).1 = Outcome.returned none
      ∧ streamOps (Chat otelTracer
          [RecvOutcome.msg { User := "ClientUser", Message := "hello" },
            RecvOutcome.fail GoError.EOF] (fun _ => none) 0).2.2
        = [Event.recv (RecvOutcome.msg { User := "ClientUser", Message := "hello" }),
            Event.send { User := "Server", Message := "Echo: hello" } none,
            Event.recv (RecvOutcome.fail GoError.EOF)] :=
  ⟨fun _ _ => rfl,
    by simpa using C2_echo_in_order otelTracer [{ User := "ClientUser", Message := "hello" }]
          (fun _ => none) 0 (fun _ _ => rfl)⟩

/-- Every script is of one of three kinds: leading messages whose `Send`s succeed,
followed by a failing `Recv`; or followed by a message whose `Send` fails; or followed
by nothing. -/
theorem script_cases :
    ∀ (recvs : List RecvOutcome) (sendRes : Nat → Option GoError),
      (∃ (msgs : List ChatMessage) (e : GoError) (rest : List RecvOutcome),
          (∀ k, k < msgs.length → sendRes k = none)
        ∧ recvs = msgs.map RecvOutcome.msg ++ RecvOutcome.fail e :: rest)
      ∨ (∃ (msgs : List ChatMessage) (m : ChatMessage) (rest : List RecvOutcome) (e : GoError),
          (∀ k, k < msgs.length → sendRes k = none)
        ∧ sendRes msgs.length = some e
        ∧ recvs = msgs.map RecvOutcome.msg ++ RecvOutcome.msg m :: rest)
      ∨ (∃ (msgs : List ChatMessage), (∀ k, k < msgs.length → sendRes k = none)
        ∧ recvs = msgs.map RecvOutcome.msg) := by
  intro recvs
  induction recvs with
  | nil =>
      intro sendRes
      exact Or.inr (Or.inr ⟨[], by simp, by simp⟩)
  | cons r rest ih =>
      intro sendRes
      cases r with
      | fail e => exact Or.inl ⟨[], e, rest, by simp, by simp⟩
      | msg m =>
          cases hs : sendRes 0 with
          | some e => exact Or.inr (Or.inl ⟨[], m, rest, e, by simp, by simpa using hs, by simp⟩)
          | none =>
              have hok : ∀ (msgs : List ChatMessage),
                  (∀ k, k < msgs.length → sendRes (k + 1) = none) →
                  ∀ k, k < (m :: msgs).length → sendRes k = none := by
                intro msgs h k hk
                cases k with
                | zero => exact hs
                | succ k => exact h k (by simpa using hk)
              rcases ih (fun k => sendRes (k + 1)) with
                ⟨msgs, e, rest2, h1, h2⟩ | ⟨msgs, m2, rest2, e, h1, h2, h3⟩ | ⟨msgs, h1, h2⟩
              · exact Or.inl ⟨m :: msgs, e, rest2, hok msgs h1, by simp [h2]⟩
              · exact Or.inr (Or.inl ⟨m :: msgs, m2, rest2, e, hok msgs h1,
                  by simpa using h2, by simp [h3]⟩)
              · exact Or.inr (Or.inr ⟨m :: msgs, hok msgs h1, by simp [h2]⟩)

/-- C3: for every script of `Recv` and `Send` outcomes `Chat` stops at the first
terminal event of the script. Read from the script: when leading messages whose `Send`s
succeed are followed by a `Recv` yielding an error `e`, `Chat` echoes those messages,
makes that `Recv`, and returns `nil` if `e` is `io.EOF` and `e` otherwise; when they are
followed by a message whose `Send` fails with `e`, `Chat` echoes them, receives that
message, attempts that `Send`, and returns `e`; in both cases nothing scripted after
the terminal event is called; when the script ends without a terminal event `Chat` is
blocked in `Recv`; and every script is of one of these three kinds. Read from the run:
a terminal call on the stream (a `Recv` that yields an error, `io.EOF` included, or a
`Send` that fails) is the last call on the stream; `Chat` returns `nil` exactly when
its last call is a `Recv` yielding `io.EOF`; it returns the error `e` exactly when its
last call is a `Recv` failing with `e`, not `io.EOF`, or a `Send` failing with `e`; and
it has not returned exactly when no call so far was terminal. -/
theorem C3_stops_at_terminal {σ : Type} (T : Tracer σ) (recvs : List RecvOutcome)
    (sendRes : Nat → Option GoError) (ts : σ) :
    (∀ (i : Nat) (ev : Event),
        (streamOps (Chat T recvs sendRes ts).2.2)[i]? = some ev →
        ev.isTerminal = true →
        ∀ j : Nat, i < j → (streamOps (Chat T recvs sendRes ts).2.2)[j]? = none)
    ∧ ((Chat T recvs sendRes ts).1 = Outcome.returned none ↔
        (streamOps (Chat T recvs sendRes ts).2.2).getLast?
          = some (Event.recv (RecvOutcome.fail GoError.EOF)))
    ∧ (∀ e, (Chat T recvs sendRes ts).1 = Outcome.returned (some e) ↔
        ((streamOps (Chat T recvs sendRes ts).2.2).getLast?
            = some (Event.recv (RecvOutcome.fail e)) ∧ e ≠ GoError.EOF)
        ∨ ∃ m, (streamOps (Chat T recvs sendRes ts).2.2).getLast?
            = some (Event.send m (some e)))
    ∧ ((Chat T recvs sendRes ts).1 = Outcome.blocked ↔
        ∀ ev ∈ streamOps (Chat T recvs sendRes ts).2.2, ev.isTerminal = false)
    ∧ (∀ (msgs : List ChatMessage) (e : GoError) (rest : List RecvOutcome),
        (∀ k, k < msgs.length → sendRes k = none) →
        recvs = msgs.map RecvOutcome.msg ++ RecvOutcome.fail e :: rest →
        (Chat T recvs sendRes ts).1
            = Outcome.returned (if e = GoError.EOF then none else some e)
          ∧ streamOps (Chat T recvs sendRes ts).2.2
            = msgs.flatMap (fun m => [Event.recv (RecvOutcome.msg m),
                Event.send { User := "Server", Message := "Echo: " ++ m.Message } none])
              ++ [Event.recv (RecvOutcome.fail e)])
    ∧ (∀ (msgs : List ChatMessage) (m : ChatMessage) (rest : List RecvOutcome) (e : GoError),
        (∀ k, k < msgs.length → sendRes k = none) →
        sendRes msgs.length = some e →
        recvs = msgs.map RecvOutcome.msg ++ RecvOutcome.msg m :: rest →
        (Chat T recvs sendRes ts).1 = Outcome.returned (some e)
          ∧ streamOps (Chat T recvs sendRes ts).2.2
            = msgs.flatMap (fun m => [Event.recv (RecvOutcome.msg m),
                Event.send { User := "Server", Message := "Echo: " ++ m.Message } none])
              ++ [Event.recv (RecvOutcome.msg m),
                Event.send { User := "Server", Message := "Echo: " ++ m.Message } (some e)])
    ∧ (∀ (msgs : List ChatMessage),
        (∀ k, k < msgs.length → sendRes k = none) →
        recvs = msgs.map RecvOutcome.msg →
        (Chat T recvs sendRes ts).1 = Outcome.blocked
          ∧ streamOps (Chat T recvs sendRes ts).2.2
            = msgs.flatMap (fun m => [Event.recv (RecvOutcome.msg m),
                Event.send { User := "Server", Message := "Echo: " ++ m.Message } none]))
    ∧ ((∃ (msgs : List ChatMessage) (e : GoError) (rest : List RecvOutcome),
          (∀ k, k < msgs.length → sendRes k = none)
          ∧ recvs = msgs.map RecvOutcome.msg ++ RecvOutcome.fail e :: rest)
        ∨ (∃ (msgs : List ChatMessage) (m : ChatMessage) (rest : List RecvOutcome) (e : GoError),
          (∀ k, k < msgs.length → sendRes k = none)
          ∧ sendRes msgs.length = some e
          ∧ recvs = msgs.map RecvOutcome.msg ++ RecvOutcome.msg m :: rest)
        ∨ (∃ (msgs : List ChatMessage), (∀ k, k < msgs.length → sendRes k = none)
          ∧ recvs = msgs.map RecvOutcome.msg)) := by
  obtain ⟨span, ts1, hops, hout⟩ := Chat_ops T recvs sendRes ts
  rw [hops, hout]
  obtain ⟨t1, t2, t3, t4⟩ := ChatLoop_terminal T span recvs sendRes ts1
  refine ⟨t1, t2, t3, t4, ?_, ?_, ?_, script_cases recvs sendRes⟩
  · intro msgs e rest hok hrecvs
    subst hrecvs
    obtain ⟨ts2, lout, lops⟩ := ChatLoop_leading T span msgs (RecvOutcome.fail e :: rest)
      sendRes ts1 hok
    obtain ⟨fops, fout⟩ := ChatLoop_fail_ops T span e rest
      (fun k => sendRes (k + msgs.length)) ts2
    rw [lout, lops, fops, fout]
    exact ⟨rfl, rfl⟩
  · intro msgs m rest e hok hfail hrecvs
    subst hrecvs
    obtain ⟨ts2, lout, lops⟩ := ChatLoop_leading T span msgs (RecvOutcome.msg m :: rest)
      sendRes ts1 hok
    obtain ⟨ts3, mops, mout⟩ := ChatLoop_msg_ops T span m rest
      (fun k => sendRes (k + msgs.length)) ts2
    have h0 : sendRes (0 + msgs.length) = some e := by simpa using hfail
    simp only [h0] at mops mout
    rw [lout, lops, mops, mout]
    exact ⟨rfl, rfl⟩
  · intro msgs hok hrecvs
    subst hrecvs
    obtain ⟨ts2, lout, lops⟩ := ChatLoop_leading T span msgs [] sendRes ts1 hok
    simp only [List.append_nil] at lout lops
    rw [lout, lops]
    simp only [ChatLoop, streamOps_nil, List.append_nil]
    exact ⟨trivial, rfl⟩

/-- C10: for every script of `Recv` and `Send` outcomes, `Chat` returns the same value
and makes the same calls on the stream, with the same messages, under the recording
tracer as under the tracer whose operations do nothing. -/
theorem C10_tracing_transparent (recvs : List RecvOutcome) (sendRes : Nat → Option GoError)
    (n : Nat) :
    (Chat otelTracer recvs sendRes n).1 = (Chat noopTracer recvs sendRes ()).1
      ∧ streamOps (Chat otelTracer recvs sendRes n).2.2
        = streamOps (Chat noopTracer recvs sendRes ()).2.2 :=
  Chat_tracer_independent otelTracer noopTracer recvs sendRes n ()

/-! ## Spans under the recording tracer -/

theorem endsWithin_nil (d : Nat) (s : Span) : EndsWithin d s [] := by
  intro k
  simp [endsOf, startsOf]

theorem endsWithin_cons_start (d : Nat) (s : Span) (tracer : String) (ctx : Ctx)
    (name : String) (tr : List Event) (h : EndsWithin (d + 1) s tr) :
    EndsWithin d s (Event.span (SpanEvent.start s tracer ctx name) :: tr) := by
  intro k
  cases k with
  | zero => simp [endsOf, startsOf]
  | succ k =>
      have := h k
      simp [endsOf, startsOf, List.countP_cons, Event.endsSpan, Event.startsSpan] at this ⊢
      omega

theorem endsWithin_cons_finish (d : Nat) (s : Span) (tr : List Event)
    (h : EndsWithin d s tr) :
    EndsWithin (d + 1) s (Event.span (SpanEvent.finish s) :: tr) := by
  intro k
  cases k with
  | zero => simp [endsOf, startsOf]
  | succ k =>
      have := h k
      simp [endsOf, startsOf, List.countP_cons, Event.endsSpan, Event.startsSpan] at this ⊢
      omega

theorem endsWithin_cons_other (d : Nat) (s : Span) (e : Event) (tr : List Event)
    (he : e.endsSpan s = false) (h : EndsWithin d s tr) : EndsWithin d s (e :: tr) := by
  intro k
  cases k with
  | zero => simp [endsOf, startsOf]
  | succ k =>
      have := h k
      simp only [endsOf, startsOf, List.take_succ_cons, List.countP_cons, he] at this ⊢
      by_cases hst : Event.startsSpan s e = true <;> simp [hst] <;> omega

theorem endsWithin_mono (d : Nat) (s : Span) (tr : List Event) (h : EndsWithin d s tr) :
    EndsWithin (d + 1) s tr := by
  intro k
  have := h k
  omega

/-- One turn of the loop of `Chat` under the recording tracer, a message received. -/
theorem ChatLoop_otel_msg (root : Span) (m : ChatMessage) (rest : List RecvOutcome)
    (sendRes : Nat → Option GoError) (n : Nat) :
    ChatLoop otelTracer root (RecvOutcome.msg m :: rest) sendRes n =
      match sendRes 0 with
      | some err =>
          (Outcome.returned (some err), n + 1,
            [Event.recv (RecvOutcome.msg m),
              Event.span (SpanEvent.start n "ChatService" Ctx.background "ReceiveMessage"),
              Event.span (SpanEvent.setAttributes n enduserID m.User),
              Event.log ("Received message from " ++ m.User ++ ": " ++ m.Message),
              Event.send (echoReply m) (some err),
              Event.span (SpanEvent.recordError n err),
              Event.log ("Error sending message: " ++ err.Error),
              Event.span (SpanEvent.finish n)])
      | none =>
          ((ChatLoop otelTracer root rest (fun k => sendRes (k + 1)) (n + 1)).1,
            (ChatLoop otelTracer root rest (fun k => sendRes (k + 1)) (n + 1)).2.1,
            [Event.recv (RecvOutcome.msg m),
              Event.span (SpanEvent.start n "ChatService" Ctx.background "ReceiveMessage"),
              Event.span (SpanEvent.setAttributes n enduserID m.User),
              Event.log ("Received message from " ++ m.User ++ ": " ++ m.Message),
              Event.send (echoReply m) none,
              Event.span (SpanEvent.finish n)]
              ++ (ChatLoop otelTracer root rest (fun k => sendRes (k + 1)) (n + 1)).2.2) := by
  cases h : sendRes 0 <;> simp [ChatLoop, h, otelTracer, spanEvents]

/-- One turn of the loop of `Chat` under the recording tracer, `Recv` failing. -/
theorem ChatLoop_otel_fail (root : Span) (err : GoError) (rest : List RecvOutcome)
    (sendRes : Nat → Option GoError) (n : Nat) :
    ChatLoop otelTracer root (RecvOutcome.fail err :: rest) sendRes n =
      if err = GoError.EOF then
        (Outcome.returned none, n,
          [Event.recv (RecvOutcome.fail err), Event.log "Client disconnected"])
      else
        (Outcome.returned (some err), n,
          [Event.recv (RecvOutcome.fail err), Event.span (SpanEvent.recordError root err),
            Event.log ("Error receiving message: " ++ err.Error)]) := by
  by_cases h : err = GoError.EOF <;> simp [ChatLoop, h, otelTracer, spanEvents]

/-- The spans of the loop of `Chat` under the recording tracer: spans numbered below
the tracer state are not started; every span is started at most once and ended as
often as started; no span is ended before it is started. -/
theorem ChatLoop_otel_spans (root : Span) :
    ∀ (recvs : List RecvOutcome) (sendRes : Nat → Option GoError) (n : Nat),
      (∀ s, s < n → startsOf s (ChatLoop otelTracer root recvs sendRes n).2.2 = 0)
      ∧ (∀ s, endsOf s (ChatLoop otelTracer root recvs sendRes n).2.2
            = startsOf s (ChatLoop otelTracer root recvs sendRes n).2.2
          ∧ startsOf s (ChatLoop otelTracer root recvs sendRes n).2.2 ≤ 1)
      ∧ (∀ s, EndsWithin 0 s (ChatLoop otelTracer root recvs sendRes n).2.2) := by
  intro recvs
  induction recvs with
  | nil =>
      intro sendRes n
      simp [ChatLoop, startsOf, endsOf]
      exact fun s => endsWithin_nil 0 s
  | cons r rest ih =>
      intro sendRes n
      cases r with
      | fail err =>
          rw [ChatLoop_otel_fail]
          by_cases h : err = GoError.EOF
          · simp [h, startsOf, endsOf, Event.startsSpan, Event.endsSpan]
            intro s
            exact endsWithin_cons_other 0 s _ _ rfl
              (endsWithin_cons_other 0 s _ _ rfl (endsWithin_nil 0 s))
          · simp [h, startsOf, endsOf, Event.startsSpan, Event.endsSpan]
            intro s
            exact endsWithin_cons_other 0 s _ _ rfl
              (endsWithin_cons_other 0 s _ _ rfl
                (endsWithin_cons_other 0 s _ _ rfl (endsWithin_nil 0 s)))
      | msg m =>
          rw [ChatLoop_otel_msg]
          cases hs : sendRes 0 with
          | some err =>
              simp only []
              refine ⟨?_, ?_, ?_⟩
              · intro s hlt
                have : n ≠ s := by omega
                simp [startsOf, Event.startsSpan, this]
              · intro s
                by_cases hn : n = s <;> simp [startsOf, endsOf, Event.startsSpan, Event.endsSpan, hn]
              · intro s
                by_cases hn : n = s
                · subst hn
                  refine endsWithin_cons_other 0 _ _ _ rfl (endsWithin_cons_start 0 _ _ _ _ _ ?_)
                  refine endsWithin_cons_other 1 _ _ _ rfl (endsWithin_cons_other 1 _ _ _ rfl ?_)
                  refine endsWithin_cons_other 1 _ _ _ rfl (endsWithin_cons_other 1 _ _ _ rfl ?_)
                  exact endsWithin_cons_other 1 _ _ _ rfl
                    (endsWithin_cons_finish 0 _ _ (endsWithin_nil 0 _))
                · have hf : Event.endsSpan s (Event.span (SpanEvent.finish n)) = false := by
                    simp [Event.endsSpan, hn]
                  refine endsWithin_cons_other 0 _ _ _ rfl (endsWithin_cons_other 0 _ _ _ rfl ?_)
                  refine endsWithin_cons_other 0 _ _ _ rfl (endsWithin_cons_other 0 _ _ _ rfl ?_)
                  refine endsWithin_cons_other 0 _ _ _ rfl (endsWithin_cons_other 0 _ _ _ rfl ?_)
                  exact endsWithin_cons_other 0 _ _ _ rfl
                    (endsWithin_cons_other 0 _ _ _ hf (endsWithin_nil 0 _))
          | none =>
              obtain ⟨ih1, ih2, ih3⟩ := ih (fun k => sendRes (k + 1)) (n + 1)
              simp only []
              generalize (ChatLoop otelTracer root rest (fun k => sendRes (k + 1)) (n + 1)).2.2
                = tail at *
              refine ⟨?_, ?_, ?_⟩
              · intro s hlt
                have : n ≠ s := by omega
                have := ih1 s (by omega)
                simp_all [startsOf, Event.startsSpan]
              · intro s
                have h2 := ih2 s
                by_cases hn : n = s
                · have h1 := ih1 s (by omega)
                  simp_all [startsOf, endsOf, Event.startsSpan, Event.endsSpan]
                · simp_all [startsOf, endsOf, Event.startsSpan, Event.endsSpan]
              · intro s
                have h3 := ih3 s
                by_cases hn : n = s
                · subst hn
                  refine endsWithin_cons_other 0 _ _ _ rfl (endsWithin_cons_start 0 _ _ _ _ _ ?_)
                  refine endsWithin_cons_other 1 _ _ _ rfl (endsWithin_cons_other 1 _ _ _ rfl ?_)
                  exact endsWithin_cons_other 1 _ _ _ rfl (endsWithin_cons_finish 0 _ _ h3)
                · have hf : Event.endsSpan s (Event.span (SpanEvent.finish n)) = false := by
                    simp [Event.endsSpan, hn]
                  refine endsWithin_cons_other 0 _ _ _ rfl (endsWithin_cons_other 0 _ _ _ rfl ?_)
                  refine endsWithin_cons_other 0 _ _ _ rfl (endsWithin_cons_other 0 _ _ _ rfl ?_)
                  exact endsWithin_cons_other 0 _ _ _ rfl (endsWithin_cons_other 0 _ _ _ hf h3)

/-- The loop of `Chat` under the recording tracer leaves no span open. -/
theorem ChatLoop_otel_open (root : Span) :
    ∀ (recvs : List RecvOutcome) (sendRes : Nat → Option GoError) (n : Nat),
      openSpans (ChatLoop otelTracer root recvs sendRes n).2.2 = 0 := by
  intro recvs
  induction recvs with
  | nil => intro sendRes n; simp [ChatLoop, openSpans]
  | cons r rest ih =>
      intro sendRes n
      cases r with
      | fail err =>
          rw [ChatLoop_otel_fail]
          by_cases h : err = GoError.EOF <;> simp [h, openSpans, Event.isStart, Event.isEnd]
      | msg m =>
          rw [ChatLoop_otel_msg]
          cases hs : sendRes 0 with
          | some err => simp [openSpans, Event.isStart, Event.isEnd]
          | none =>
              have := ih (fun k => sendRes (k + 1)) (n + 1)
              simp [openSpans, Event.isStart, Event.isEnd] at this ⊢
              omega

/-- The handler `Chat` under the recording tracer, in terms of its loop. -/
theorem Chat_otel (recvs : List RecvOutcome) (sendRes : Nat → Option GoError) (n : Nat) :
    Chat otelTracer recvs sendRes n =
      match (ChatLoop otelTracer n recvs sendRes (n + 1)).1 with
      | Outcome.returned err =>
          (Outcome.returned err, (ChatLoop otelTracer n recvs sendRes (n + 1)).2.1,
            Event.span (SpanEvent.start n "ChatService" Ctx.streamContext "Chat")
              :: Event.log "Client connected for chat"
              :: (ChatLoop otelTracer n recvs sendRes (n + 1)).2.2
              ++ [Event.span (SpanEvent.finish n)])
      | Outcome.blocked =>
          (Outcome.blocked, (ChatLoop otelTracer n recvs sendRes (n + 1)).2.1,
            Event.span (SpanEvent.start n "ChatService" Ctx.streamContext "Chat")
              :: Event.log "Client connected for chat"
              :: (ChatLoop otelTracer n recvs sendRes (n + 1)).2.2) := by
  simp only [Chat]
  split <;> simp_all [otelTracer, spanEvents]

theorem endsWithin_append_finish (s : Span) (tr : List Event) (h : EndsWithin 1 s tr)
    (hc : endsOf s tr + 1 ≤ 1 + startsOf s tr) :
    EndsWithin 1 s (tr ++ [Event.span (SpanEvent.finish s)]) := by
  intro k
  by_cases hk : k ≤ tr.length
  · rw [List.take_append_of_le_length hk]
    exact h k
  · rw [List.take_of_length_le (by simp; omega)]
    simp [endsOf, startsOf, Event.endsSpan, Event.startsSpan] at hc ⊢
    omega

theorem endsWithin_append_other (d : Nat) (s : Span) (e : Event) (tr : List Event)
    (he : e.endsSpan s = false) (h : EndsWithin d s tr) : EndsWithin d s (tr ++ [e]) := by
  intro k
  by_cases hk : k ≤ tr.length
  · rw [List.take_append_of_le_length hk]
    exact h k
  · rw [List.take_of_length_le (by simp; omega)]
    have := h tr.length
    simp only [List.take_length] at this
    simp only [endsOf, startsOf, List.countP_append, List.countP_cons, he] at this ⊢
    simp
    omega

/-- C7: in every run of `Chat` under the recording tracer, started with the tracer at
span number `n`: the span "Chat", numbered `n`, is started by the first event of the
run, before any `Recv`, and only once; no span is started twice; at no point of the
run has a span been ended more often than started; every other span (the spans
"ReceiveMessage", one a message) is ended exactly as often as started, whether its
`Send` succeeded or failed; and when `Chat` returns, on any of its exit paths, the span
"Chat" has been ended exactly once, by the last event of the run, every span started
has been ended exactly once, and no span is open. While `Chat` has not returned the
span "Chat" has not been ended. -/
theorem C7_spans_ended_once (recvs : List RecvOutcome) (sendRes : Nat → Option GoError)
    (n : Nat) :
    (Chat otelTracer recvs sendRes n).2.2.head?
        = some (Event.span (SpanEvent.start n "ChatService" Ctx.streamContext "Chat"))
    ∧ startsOf n (Chat otelTracer recvs sendRes n).2.2 = 1
    ∧ (∀ s, startsOf s (Chat otelTracer recvs sendRes n).2.2 ≤ 1)
    ∧ (∀ s, EndsWithin 0 s (Chat otelTracer recvs sendRes n).2.2)
    ∧ (∀ s, s ≠ n → endsOf s (Chat otelTracer recvs sendRes n).2.2
        = startsOf s (Chat otelTracer recvs sendRes n).2.2)
    ∧ (∀ err, (Chat otelTracer recvs sendRes n).1 = Outcome.returned err →
        endsOf n (Chat otelTracer recvs sendRes n).2.2 = 1
        ∧ (Chat otelTracer recvs sendRes n).2.2.getLast? = some (Event.span (SpanEvent.finish n))
        ∧ (∀ s, endsOf s (Chat otelTracer recvs sendRes n).2.2
            = startsOf s (Chat otelTracer recvs sendRes n).2.2)
        ∧ openSpans (Chat otelTracer recvs sendRes n).2.2 = 0)
    ∧ ((Chat otelTracer recvs sendRes n).1 = Outcome.blocked →
        endsOf n (Chat otelTracer recvs sendRes n).2.2 = 0) := by
  obtain ⟨l1, l2, l3⟩ := ChatLoop_otel_spans n recvs sendRes (n + 1)
  have lo := ChatLoop_otel_open n recvs sendRes (n + 1)
  have hn0 : startsOf n (ChatLoop otelTracer n recvs sendRes (n + 1)).2.2 = 0 :=
    l1 n (by omega)
  have hn1 : endsOf n (ChatLoop otelTracer n recvs sendRes (n + 1)).2.2 = 0 := by
    rw [(l2 n).1, hn0]
  rw [Chat_otel]
  generalize (ChatLoop otelTracer n recvs sendRes (n + 1)).2.2 = tr at *
  cases hout : (ChatLoop otelTracer n recvs sendRes (n + 1)).1 with
  | returned err =>
      simp only []
      have hcount : ∀ s, endsOf s
          (Event.span (SpanEvent.start n "ChatService" Ctx.streamContext "Chat")
            :: Event.log "Client connected for chat" :: tr
            ++ [Event.span (SpanEvent.finish n)])
          = startsOf s (Event.span (SpanEvent.start n "ChatService" Ctx.streamContext "Chat")
            :: Event.log "Client connected for chat" :: tr
            ++ [Event.span (SpanEvent.finish n)]) := by
        intro s
        have h2 := (l2 s).1
        by_cases hs : n = s
        · subst hs
          simp_all [startsOf, endsOf, Event.startsSpan, Event.endsSpan]
        · simp_all [startsOf, endsOf, Event.startsSpan, Event.endsSpan]
      refine ⟨by simp, ?_, ?_, ?_, ?_, ?_, ?_⟩
      · simp_all [startsOf, endsOf, Event.startsSpan, Event.endsSpan]
      · intro s
        have h2 := (l2 s).2
        by_cases hs : n = s
        · subst hs
          simp_all [startsOf, endsOf, Event.startsSpan, Event.endsSpan]
        · simp_all [startsOf, endsOf, Event.startsSpan, Event.endsSpan]
      · intro s
        by_cases hs : n = s
        · subst hs
          refine endsWithin_cons_start 0 _ _ _ _ _ (endsWithin_cons_other 1 _ _ _ rfl ?_)
          exact endsWithin_append_finish _ _ (endsWithin_mono 0 _ _ (l3 _)) (by omega)
        · have hf : Event.endsSpan s (Event.span (SpanEvent.finish n)) = false := by
            simp [Event.endsSpan, hs]
          refine endsWithin_cons_other 0 _ _ _ rfl (endsWithin_cons_other 0 _ _ _ rfl ?_)
          exact endsWithin_append_other 0 _ _ _ hf (l3 s)
      · intro s _
        exact hcount s
      · intro e _
        refine ⟨?_, ?_, hcount, ?_⟩
        · simp_all [startsOf, endsOf, Event.startsSpan, Event.endsSpan]
        · rw [show Event.span (SpanEvent.start n "ChatService" Ctx.streamContext "Chat")
              :: Event.log "Client connected for chat" :: tr
              ++ [Event.span (SpanEvent.finish n)]
              = (Event.span (SpanEvent.start n "ChatService" Ctx.streamContext "Chat")
              :: Event.log "Client connected for chat" :: tr)
              ++ [Event.span (SpanEvent.finish n)] by simp]
          exact List.getLast?_concat _
        · simp [openSpans, Event.isStart, Event.isEnd] at lo ⊢
          omega
      · intro h
        simp at h
  | blocked =>
      simp only []
      refine ⟨by simp, ?_, ?_, ?_, ?_, ?_, ?_⟩
      · simp_all [startsOf, endsOf, Event.startsSpan, Event.endsSpan]
      · intro s
        have h2 := (l2 s).2
        by_cases hs : n = s
        · subst hs
          simp_all [startsOf, endsOf, Event.startsSpan, Event.endsSpan]
        · simp_all [startsOf, endsOf, Event.startsSpan, Event.endsSpan]
      · intro s
        by_cases hs : n = s
        · subst hs
          refine endsWithin_cons_start 0 _ _ _ _ _ (endsWithin_cons_other 1 _ _ _ rfl ?_)
          exact endsWithin_mono 0 _ _ (l3 _)
        · exact endsWithin_cons_other 0 _ _ _ rfl (endsWithin_cons_other 0 _ _ _ rfl (l3 s))
      · intro s hs
        have h2 := (l2 s).1
        have : ¬ n = s := fun h => hs h.symm
        simp_all [startsOf, endsOf, Event.startsSpan, Event.endsSpan]
      · intro e h
        simp at h
      · intro _
        simp_all [startsOf, endsOf, Event.startsSpan, Event.endsSpan]

/-! ## Errors recorded on spans -/

/-- The six events of a turn of the loop of `Chat` whose `Send` succeeds. -/
theorem noRecordError_turn (n : Nat) (m : ChatMessage) (pre : List Event)
    (h : NoRecordError pre) :
    NoRecordError ([Event.recv (RecvOutcome.msg m),
      Event.span (SpanEvent.start n "ChatService" Ctx.background "ReceiveMessage"),
      Event.span (SpanEvent.setAttributes n enduserID m.User),
      Event.log ("Received message from " ++ m.User ++ ": " ++ m.Message),
      Event.send (echoReply m) none,
      Event.span (SpanEvent.finish n)] ++ pre) := by
  intro ev hev
  simp only [List.mem_append, List.mem_cons, List.mem_singleton, List.not_mem_nil, or_false] at hev
  rcases hev with (h1 | h1 | h1 | h1 | h1 | h1) | h1
  all_goals first
    | exact h ev h1
    | (subst h1; rfl)

/-- Errors in the loop of `Chat` under the recording tracer: a failing `Recv` is
followed by `RecordError` on the loop's span, a failing `Send` by `RecordError` on the
span of its message and then that span's `End`; nothing else records an error. -/
theorem ChatLoop_otel_errors (root : Nat) :
    ∀ (recvs : List RecvOutcome) (sendRes : Nat → Option GoError) (n : Nat), root < n →
      (∀ e, Event.recv (RecvOutcome.fail e) ∈ (ChatLoop otelTracer root recvs sendRes n).2.2 →
          e ≠ GoError.EOF →
          (ChatLoop otelTracer root recvs sendRes n).1 = Outcome.returned (some e)
          ∧ ∃ pre, (ChatLoop otelTracer root recvs sendRes n).2.2
              = pre ++ [Event.recv (RecvOutcome.fail e),
                  Event.span (SpanEvent.recordError root e),
                  Event.log ("Error receiving message: " ++ e.Error)]
            ∧ NoRecordError pre ∧ endsOf root pre = 0)
      ∧ (∀ reply e, Event.send reply (some e) ∈ (ChatLoop otelTracer root recvs sendRes n).2.2 →
          (ChatLoop otelTracer root recvs sendRes n).1 = Outcome.returned (some e)
          ∧ ∃ pre s m, (ChatLoop otelTracer root recvs sendRes n).2.2
              = pre ++ [Event.recv (RecvOutcome.msg m),
                  Event.span (SpanEvent.start s "ChatService" Ctx.background "ReceiveMessage"),
                  Event.span (SpanEvent.setAttributes s enduserID m.User),
                  Event.log ("Received message from " ++ m.User ++ ": " ++ m.Message),
                  Event.send reply (some e),
                  Event.span (SpanEvent.recordError s e),
                  Event.log ("Error sending message: " ++ e.Error),
                  Event.span (SpanEvent.finish s)]
            ∧ NoRecordError pre ∧ endsOf s pre = 0 ∧ n ≤ s)
      ∧ ((∀ ev ∈ (ChatLoop otelTracer root recvs sendRes n).2.2, ev.isTerminal = true →
            ev = Event.recv (RecvOutcome.fail GoError.EOF)) →
          NoRecordError (ChatLoop otelTracer root recvs sendRes n).2.2) := by
  intro recvs
  induction recvs with
  | nil =>
      intro sendRes n _
      simp [ChatLoop, NoRecordError]
  | cons r rest ih =>
      intro sendRes n hroot
      cases r with
      | fail err =>
          rw [ChatLoop_otel_fail]
          by_cases h : err = GoError.EOF
          · subst h
            simp [NoRecordError, Event.isRecordError]
          · simp only [h, if_false]
            refine ⟨?_, ?_, ?_⟩
            · intro e he hne
              simp at he
              subst he
              exact ⟨rfl, [], by simp, by simp [NoRecordError], by simp [endsOf]⟩
            · intro reply e he
              simp at he
            · intro hall
              have := hall (Event.recv (RecvOutcome.fail err)) (by simp) rfl
              simp at this
              exact absurd this h
      | msg m =>
          rw [ChatLoop_otel_msg]
          cases hs : sendRes 0 with
          | some err =>
              simp only []
              refine ⟨?_, ?_, ?_⟩
              · intro e he
                simp at he
              · intro reply e he
                simp at he
                obtain ⟨h1, h2⟩ := he
                subst h1 h2
                exact ⟨rfl, [], n, m, by simp, by simp [NoRecordError], by simp [endsOf],
                  Nat.le_refl _⟩
              · intro hall
                have := hall (Event.send (echoReply m) (some err)) (by simp) rfl
                simp at this
          | none =>
              obtain ⟨ih1, ih2, ih3⟩ := ih (fun k => sendRes (k + 1)) (n + 1) (by omega)
              simp only []
              generalize (ChatLoop otelTracer root rest (fun k => sendRes (k + 1)) (n + 1)).2.2
                = tail at *
              generalize (ChatLoop otelTracer root rest (fun k => sendRes (k + 1)) (n + 1)).1
                = out at *
              refine ⟨?_, ?_, ?_⟩
              · intro e he hne
                simp at he
                obtain ⟨ho, pre, hpre, hno, hends⟩ := ih1 e he hne
                refine ⟨ho, _ ++ pre, ?_, noRecordError_turn n m pre hno, ?_⟩
                · rw [hpre, List.append_assoc]
                · have : n ≠ root := by omega
                  simp [endsOf, Event.endsSpan, this] at hends ⊢
                  exact hends
              · intro reply e he
                simp at he
                obtain ⟨ho, pre, s, m2, hpre, hno, hends, hle⟩ := ih2 reply e he
                refine ⟨ho, _ ++ pre, s, m2, ?_, noRecordError_turn n m pre hno, ?_, by omega⟩
                · rw [hpre, List.append_assoc]
                · have : n ≠ s := by omega
                  simp [endsOf, Event.endsSpan, this] at hends ⊢
                  exact hends
              · intro hall
                refine noRecordError_turn n m tail (ih3 ?_)
                intro ev hev hterm
                exact hall ev (by simp [hev]) hterm

/-- One turn of the loop of `sendMessages` under the recording tracer. -/
theorem sendMessages_otel_cons (text : String) (rest : List String)
    (sendRes : Nat → Option GoError) (n : Nat) (hexit : text ≠ "exit") :
    sendMessages otelTracer (text :: rest) sendRes n =
      match sendRes 0 with
      | some err =>
          (n + 1,
            [Event.log promptLine, Event.scan (some text),
              Event.span (SpanEvent.start n "ChatClient" Ctx.background "SendMessage"),
              Event.span (SpanEvent.setAttributes n enduserID "ClientUser"),
              Event.send { User := "ClientUser", Message := text } (some err),
              Event.span (SpanEvent.recordError n err),
              Event.log ("Error sending message: " ++ err.Error),
              Event.span (SpanEvent.finish n)])
      | none =>
          ((sendMessages otelTracer rest (fun k => sendRes (k + 1)) (n + 1)).1,
            [Event.log promptLine, Event.scan (some text),
              Event.span (SpanEvent.start n "ChatClient" Ctx.background "SendMessage"),
              Event.span (SpanEvent.setAttributes n enduserID "ClientUser"),
              Event.send { User := "ClientUser", Message := text } none,
              Event.span (SpanEvent.finish n)]
              ++ (sendMessages otelTracer rest (fun k => sendRes (k + 1)) (n + 1)).2) := by
  cases h : sendRes 0 <;> simp [sendMessages, h, hexit, otelTracer, spanEvents]

/-- The six events of a turn of the loop of `sendMessages` whose `Send` succeeds. -/
theorem noRecordError_sendTurn (n : Nat) (text : String) (pre : List Event)
    (h : NoRecordError pre) :
    NoRecordError ([Event.log promptLine, Event.scan (some text),
      Event.span (SpanEvent.start n "ChatClient" Ctx.background "SendMessage"),
      Event.span (SpanEvent.setAttributes n enduserID "ClientUser"),
      Event.send { User := "ClientUser", Message := text } none,
      Event.span (SpanEvent.finish n)] ++ pre) := by
  intro ev hev
  simp only [List.mem_append, List.mem_cons, List.mem_singleton, List.not_mem_nil, or_false] at hev
  rcases hev with (h1 | h1 | h1 | h1 | h1 | h1) | h1
  all_goals first
    | exact h ev h1
    | (subst h1; rfl)

/-- Errors in `sendMessages` under the recording tracer: a failing `Send` is followed
by `RecordError` on the span of its message and then that span's `End`, and these are
the last events; nothing else records an error. -/
theorem sendMessages_otel_errors :
    ∀ (lines : List String) (sendRes : Nat → Option GoError) (n : Nat),
      (∀ m e, Event.send m (some e) ∈ (sendMessages otelTracer lines sendRes n).2 →
          ∃ pre s, (sendMessages otelTracer lines sendRes n).2
              = pre ++ [Event.span (SpanEvent.start s "ChatClient" Ctx.background "SendMessage"),
                  Event.span (SpanEvent.setAttributes s enduserID "ClientUser"),
                  Event.send m (some e),
                  Event.span (SpanEvent.recordError s e),
                  Event.log ("Error sending message: " ++ e.Error),
                  Event.span (SpanEvent.finish s)]
            ∧ NoRecordError pre ∧ endsOf s pre = 0 ∧ n ≤ s)
      ∧ ((∀ ev ∈ (sendMessages otelTracer lines sendRes n).2, ev.isTerminal = false) →
          NoRecordError (sendMessages otelTracer lines sendRes n).2) := by
  intro lines
  induction lines with
  | nil =>
      intro sendRes n
      simp [sendMessages, NoRecordError, Event.isRecordError]
  | cons text rest ih =>
      intro sendRes n
      by_cases hexit : text = "exit"
      · simp [sendMessages, hexit, NoRecordError, Event.isRecordError]
      · rw [sendMessages_otel_cons text rest sendRes n hexit]
        cases hs : sendRes 0 with
        | some err =>
            simp only []
            refine ⟨?_, ?_⟩
            · intro m e he
              simp at he
              obtain ⟨h1, h2⟩ := he
              subst h1 h2
              refine ⟨[Event.log promptLine, Event.scan (some text)], n, by simp, ?_, ?_,
                Nat.le_refl _⟩
              · intro ev hev
                simp at hev
                rcases hev with h1 | h1 <;> (subst h1; rfl)
              · simp [endsOf, Event.endsSpan]
            · intro hall
              have := hall (Event.send { User := "ClientUser", Message := text } (some err))
                (by simp)
              simp [Event.isTerminal] at this
        | none =>
            obtain ⟨ih1, ih2⟩ := ih (fun k => sendRes (k + 1)) (n + 1)
            simp only []
            generalize (sendMessages otelTracer rest (fun k => sendRes (k + 1)) (n + 1)).2
              = tail at *
            refine ⟨?_, ?_⟩
            · intro m e he
              simp at he
              obtain ⟨pre, s, hpre, hno, hends, hle⟩ := ih1 m e he
              refine ⟨_ ++ pre, s, ?_, noRecordError_sendTurn n text pre hno, ?_, by omega⟩
              · rw [hpre, List.append_assoc]
              · have : n ≠ s := by omega
                simp [endsOf, Event.endsSpan, this] at hends ⊢
                exact hends
            · intro hall
              refine noRecordError_sendTurn n text tail (ih2 ?_)
              intro ev hev
              exact hall ev (by simp [hev])

/-- The `Recv` and `Send` events of `Chat` are those of its loop. -/
theorem Chat_otel_mem (recvs : List RecvOutcome) (sendRes : Nat → Option GoError) (n : Nat)
    (ev : Event) (hop : ev.isStreamOp = true)
    (h : ev ∈ (Chat otelTracer recvs sendRes n).2.2) :
    ev ∈ (ChatLoop otelTracer n recvs sendRes (n + 1)).2.2 := by
  rw [Chat_otel] at h
  cases hout : (ChatLoop otelTracer n recvs sendRes (n + 1)).1 with
  | returned err =>
      simp only [hout, List.mem_cons, List.mem_append, List.mem_singleton, List.not_mem_nil] at h
      rcases h with (h | h | h) | h
      · subst h; simp [Event.isStreamOp] at hop
      · subst h; simp [Event.isStreamOp] at hop
      · exact h
      · simp at h; subst h; simp [Event.isStreamOp] at hop
  | blocked =>
      simp only [hout, List.mem_cons] at h
      rcases h with h | h | h
      · subst h; simp [Event.isStreamOp] at hop
      · subst h; simp [Event.isStreamOp] at hop
      · exact h

/-- C8: an error is recorded on the span that wraps the failed call, before that span
is ended and not after, and no error is recorded when nothing fails. In every run of
`Chat` under the recording tracer started at span number `n` (the span "Chat"): a
`Recv` failing with `e`, not `io.EOF`, is followed by `RecordError e` on span `n`, a log
line and `End` of span `n`, which end the run; a `Send` failing with `e` is followed by
`RecordError e` on the span started for its message, a log line, `End` of that span and
`End` of span `n`, which end the run; in both cases nothing earlier records an error
or ends the span concerned; and a run in which no `Recv` fails but by `io.EOF` and no
`Send` fails records no error. In every run of the client's `sendMessages` a `Send`
failing with `e` is followed by `RecordError e` on the span "SendMessage" started for
it, a log line and `End` of that span, which end the run, nothing earlier records an
error or ends that span; and a run without a failing `Send` records no error. In the
client's `main`, when the stream cannot be created the error is recorded on the span
"Chat", which has not been ended, and the process exits. -/
theorem C8_error_recorded_before_end :
    (∀ (recvs : List RecvOutcome) (sendRes : Nat → Option GoError) (n : Nat),
      (∀ e, Event.recv (RecvOutcome.fail e) ∈ (Chat otelTracer recvs sendRes n).2.2 →
          e ≠ GoError.EOF →
          ∃ pre, (Chat otelTracer recvs sendRes n).2.2
              = Event.span (SpanEvent.start n "ChatService" Ctx.streamContext "Chat") :: pre
                ++ [Event.recv (RecvOutcome.fail e),
                  Event.span (SpanEvent.recordError n e),
                  Event.log ("Error receiving message: " ++ e.Error),
                  Event.span (SpanEvent.finish n)]
            ∧ NoRecordError pre ∧ endsOf n pre = 0)
      ∧ (∀ reply e, Event.send reply (some e) ∈ (Chat otelTracer recvs sendRes n).2.2 →
          ∃ pre s m, (Chat otelTracer recvs sendRes n).2.2
              = Event.span (SpanEvent.start n "ChatService" Ctx.streamContext "Chat") :: pre
                ++ [Event.recv (RecvOutcome.msg m),
                  Event.span (SpanEvent.start s "ChatService" Ctx.background "ReceiveMessage"),
                  Event.span (SpanEvent.setAttributes s enduserID m.User),
                  Event.log ("Received message from " ++ m.User ++ ": " ++ m.Message),
                  Event.send reply (some e),
                  Event.span (SpanEvent.recordError s e),
                  Event.log ("Error sending message: " ++ e.Error),
                  Event.span (SpanEvent.finish s),
                  Event.span (SpanEvent.finish n)]
            ∧ NoRecordError pre ∧ endsOf s pre = 0 ∧ endsOf n pre = 0 ∧ s ≠ n)
      ∧ ((∀ ev ∈ (Chat otelTracer recvs sendRes n).2.2, ev.isTerminal = true →
            ev = Event.recv (RecvOutcome.fail GoError.EOF)) →
          NoRecordError (Chat otelTracer recvs sendRes n).2.2))
    ∧ (∀ (lines : List String) (sendRes : Nat → Option GoError) (n : Nat),
      (∀ m e, Event.send m (some e) ∈ (sendMessages otelTracer lines sendRes n).2 →
          ∃ pre s, (sendMessages otelTracer lines sendRes n).2
              = pre ++ [Event.span (SpanEvent.start s "ChatClient" Ctx.background "SendMessage"),
                  Event.span (SpanEvent.setAttributes s enduserID "ClientUser"),
                  Event.send m (some e),
                  Event.span (SpanEvent.recordError s e),
                  Event.log ("Error sending message: " ++ e.Error),
                  Event.span (SpanEvent.finish s)]
            ∧ NoRecordError pre ∧ endsOf s pre = 0)
      ∧ ((∀ ev ∈ (sendMessages otelTracer lines sendRes n).2, ev.isTerminal = false) →
          NoRecordError (sendMessages otelTracer lines sendRes n).2))
    ∧ (∀ (err : GoError) (lines : List String) (sendRes : Nat → Option GoError)
        (closeRes : Option GoError) (n : Nat),
      main otelTracer (some err) lines sendRes closeRes n
        = [Event.span (SpanEvent.start n "ChatClient" Ctx.background "Chat"),
            Event.openStream (some err),
            Event.span (SpanEvent.recordError n err),
            Event.log ("Error creating stream: " ++ err.Error),
            Event.fatal]) := by
  refine ⟨?_, ?_, ?_⟩
  rotate_left 2
  · intro err lines sendRes closeRes n
    simp [main, otelTracer, spanEvents]
  · intro recvs sendRes n
    obtain ⟨l1, l2, l3⟩ := ChatLoop_otel_errors n recvs sendRes (n + 1) (by omega)
    have hends0 : endsOf n (ChatLoop otelTracer n recvs sendRes (n + 1)).2.2 = 0 := by
      obtain ⟨s1, s2, -⟩ := ChatLoop_otel_spans n recvs sendRes (n + 1)
      rw [(s2 n).1]
      exact s1 n (by omega)
    refine ⟨?_, ?_, ?_⟩
    · intro e he hne
      have hmem := Chat_otel_mem recvs sendRes n (Event.recv (RecvOutcome.fail e)) rfl he
      obtain ⟨hout, pre, hpre, hno, hends⟩ := l1 e hmem hne
      refine ⟨Event.log "Client connected for chat" :: pre, ?_, ?_, ?_⟩
      · rw [Chat_otel]
        simp [hout, hpre]
      · intro ev hev
        simp at hev
        rcases hev with h | h
        · subst h; rfl
        · exact hno ev h
      · simpa [endsOf, Event.endsSpan] using hends
    · intro reply e he
      have hmem := Chat_otel_mem recvs sendRes n (Event.send reply (some e)) rfl he
      obtain ⟨hout, pre, s, m, hpre, hno, hends, hle⟩ := l2 reply e hmem
      refine ⟨Event.log "Client connected for chat" :: pre, s, m, ?_, ?_, ?_, ?_,
        Nat.ne_of_gt hle⟩
      · rw [Chat_otel]
        simp [hout, hpre]
      · intro ev hev
        simp at hev
        rcases hev with h | h
        · subst h; rfl
        · exact hno ev h
      · simpa [endsOf, Event.endsSpan] using hends
      · rw [hpre] at hends0
        simp [endsOf, Event.endsSpan] at hends0 ⊢
        exact hends0.1
    · intro hall
      have hloop : NoRecordError (ChatLoop otelTracer n recvs sendRes (n + 1)).2.2 := by
        apply l3
        intro ev hev hterm
        apply hall ev _ hterm
        rw [Chat_otel]
        cases hout : (ChatLoop otelTracer n recvs sendRes (n + 1)).1 <;> simp [hev]
      rw [Chat_otel]
      intro ev hev
      cases hout : (ChatLoop otelTracer n recvs sendRes (n + 1)).1 with
      | returned err =>
          simp only [hout, List.mem_cons, List.mem_append, List.mem_singleton,
            List.not_mem_nil] at hev
          rcases hev with (h | h | h) | h
          · subst h; rfl
          · subst h; rfl
          · exact hloop ev h
          · simp at h; subst h; rfl
      | blocked =>
          simp only [hout, List.mem_cons] at hev
          rcases hev with h | h | h
          · subst h; rfl
          · subst h; rfl
          · exact hloop ev h
  · intro lines sendRes n
    obtain ⟨l1, l2⟩ := sendMessages_otel_errors lines sendRes n
    refine ⟨?_, l2⟩
    intro m e he
    obtain ⟨pre, s, hpre, hno, hends, -⟩ := l1 m e he
    exact ⟨pre, s, hpre, hno, hends⟩

/-! ## The client: `sendMessages` -/

@[simp] theorem sendAttempts_nil : sendAttempts [] = [] := rfl

@[simp] theorem sendAttempts_append (a b : List Event) :
    sendAttempts (a ++ b) = sendAttempts a ++ sendAttempts b := by
  simp [sendAttempts]

@[simp] theorem sendAttempts_spanEvents (evs : List SpanEvent) :
    sendAttempts (spanEvents evs) = [] := by
  induction evs with
  | nil => rfl
  | cons e es ih => simp [sendAttempts, spanEvents]

@[simp] theorem sendAttempts_send (m : ChatMessage) (res : Option GoError) (tr : List Event) :
    sendAttempts (Event.send m res :: tr) = (m, res) :: sendAttempts tr := by
  simp [sendAttempts]

@[simp] theorem sendAttempts_log (line : String) (tr : List Event) :
    sendAttempts (Event.log line :: tr) = sendAttempts tr := by
  simp [sendAttempts]

@[simp] theorem sendAttempts_scan (line : Option String) (tr : List Event) :
    sendAttempts (Event.scan line :: tr) = sendAttempts tr := by
  simp [sendAttempts]

/-- The `Send` calls of `sendMessages`, turn by turn. -/
theorem sendMessages_attempts {σ : Type} (T : Tracer σ) (text : String) (rest : List String)
    (sendRes : Nat → Option GoError) (ts : σ) :
    ∃ ts1, sendAttempts (sendMessages T (text :: rest) sendRes ts).2
      = if text = "exit" then [] else
          ({ User := "ClientUser", Message := text }, sendRes 0)
            :: (match sendRes 0 with
                | some _ => []
                | none => sendAttempts (sendMessages T rest (fun k => sendRes (k + 1)) ts1).2) := by
  by_cases hexit : text = "exit"
  · exact ⟨ts, by simp [sendMessages, hexit]⟩
  · cases h : sendRes 0 with
    | some err => exact ⟨ts, by simp [sendMessages, hexit, h]⟩
    | none =>
        refine ⟨(T.End (T.Start "ChatClient" Ctx.background "SendMessage" ts).1
          (T.SetAttributes (T.Start "ChatClient" Ctx.background "SendMessage" ts).1
            enduserID "ClientUser"
            (T.Start "ChatClient" Ctx.background "SendMessage" ts).2.1).1).1, ?_⟩
        simp [sendMessages, hexit, h]

/-- What `sendMessages` sends, for any tracer. -/
theorem sendMessages_sends {σ : Type} (T : Tracer σ) :
    ∀ (lines : List String) (sendRes : Nat → Option GoError) (ts : σ),
      ((sendAttempts (sendMessages T lines sendRes ts).2).map Prod.fst
          <+: (linesBeforeExit lines).map (fun l => { User := "ClientUser", Message := l }))
      ∧ (∀ (i : Nat) (m : ChatMessage) (r : Option GoError),
          (sendAttempts (sendMessages T lines sendRes ts).2)[i]? = some (m, r) → r = sendRes i)
      ∧ (∀ i : Nat, i + 1 < (sendAttempts (sendMessages T lines sendRes ts).2).length →
          sendRes i = none)
      ∧ ((sendAttempts (sendMessages T lines sendRes ts).2).length
            < (linesBeforeExit lines).length →
          ∃ e, sendRes ((sendAttempts (sendMessages T lines sendRes ts).2).length - 1) = some e
            ∧ 1 ≤ (sendAttempts (sendMessages T lines sendRes ts).2).length) := by
  intro lines
  induction lines with
  | nil =>
      intro sendRes ts
      simp [sendMessages, linesBeforeExit]
  | cons text rest ih =>
      intro sendRes ts
      obtain ⟨ts1, hA⟩ := sendMessages_attempts T text rest sendRes ts
      rw [hA]
      by_cases hexit : text = "exit"
      · simp [hexit, linesBeforeExit]
      · have hcand : linesBeforeExit (text :: rest) = text :: linesBeforeExit rest := by
          simp [linesBeforeExit, List.takeWhile_cons, hexit]
        rw [hcand]
        simp only [hexit, if_false]
        cases hs : sendRes 0 with
        | some err =>
            refine ⟨?_, ?_, ?_, ?_⟩
            · simp
            · intro i m r h
              cases i with
              | zero => simp at h; rw [hs]; exact h.2.symm
              | succ i => simp at h
            · intro i h
              simp at h
            · intro _
              exact ⟨err, by simpa using hs, by simp⟩
        | none =>
            obtain ⟨ih1, ih2, ih3, ih4⟩ := ih (fun k => sendRes (k + 1)) ts1
            generalize sendAttempts (sendMessages T rest (fun k => sendRes (k + 1)) ts1).2
              = tail at *
            refine ⟨?_, ?_, ?_, ?_⟩
            · simpa [List.prefix_cons_inj] using ih1
            · intro i m r h
              cases i with
              | zero => simp at h; rw [hs]; exact h.2.symm
              | succ i => exact ih2 i m r (by simpa using h)
            · intro i h
              cases i with
              | zero => exact hs
              | succ i => exact ih3 i (by simpa using h)
            · intro h
              obtain ⟨e, he, hl⟩ := ih4 (by simpa using h)
              refine ⟨e, ?_, by simp⟩
              have : (tail.length + 1 - 1) = (tail.length - 1) + 1 := by omega
              simp only [List.length_cons, this]
              exact he

/-- C4: for every list of console lines and every assignment of outcomes to the `Send`
calls, under any tracer, the messages `sendMessages` passes to `Send` are, in input
order and without repetition, those of an initial stretch of the lines that precede
the first line "exit", each with `User = "ClientUser"` and `Message` the line; the
`i`-th `Send` gets the `i`-th outcome; every `Send` but the last attempted succeeded,
so nothing is sent after a failed `Send`; and if a line before "exit" was not sent,
the last `Send` attempted had failed. The line "exit" is never sent. -/
theorem C4_sends_lines_before_exit {σ : Type} (T : Tracer σ) (lines : List String)
    (sendRes : Nat → Option GoError) (ts : σ) :
    ((sendAttempts (sendMessages T lines sendRes ts).2).map Prod.fst
        <+: (linesBeforeExit lines).map (fun l => { User := "ClientUser", Message := l }))
    ∧ (∀ (i : Nat) (m : ChatMessage) (r : Option GoError),
        (sendAttempts (sendMessages T lines sendRes ts).2)[i]? = some (m, r) → r = sendRes i)
    ∧ (∀ i : Nat, i + 1 < (sendAttempts (sendMessages T lines sendRes ts).2).length →
        sendRes i = none)
    ∧ ((sendAttempts (sendMessages T lines sendRes ts).2).length
          < (linesBeforeExit lines).length →
        ∃ e, sendRes ((sendAttempts (sendMessages T lines sendRes ts).2).length - 1) = some e
          ∧ 1 ≤ (sendAttempts (sendMessages T lines sendRes ts).2).length)
    ∧ (∀ (m : ChatMessage) (r : Option GoError),
        (m, r) ∈ sendAttempts (sendMessages T lines sendRes ts).2 →
        m.User = "ClientUser" ∧ m.Message ≠ "exit" ∧ m.Message ∈ lines) := by
  obtain ⟨h1, h2, h3, h4⟩ := sendMessages_sends T lines sendRes ts
  refine ⟨h1, h2, h3, h4, ?_⟩
  intro m r hm
  have hfst : m ∈ (sendAttempts (sendMessages T lines sendRes ts).2).map Prod.fst :=
    List.mem_map.mpr ⟨(m, r), hm, rfl⟩
  obtain ⟨l, hl, hml⟩ := List.mem_map.mp (h1.subset hfst)
  subst hml
  have hne := List.mem_takeWhile_imp hl
  exact ⟨rfl, by simpa using hne, List.takeWhile_subset _ hl⟩

/-! ## The client: `receiveMessages` -/

@[simp] theorem plainEvents_nil : plainEvents [] = [] := rfl

@[simp] theorem plainEvents_append (a b : List Event) :
    plainEvents (a ++ b) = plainEvents a ++ plainEvents b := by
  simp [plainEvents]

@[simp] theorem plainEvents_spanEvents (evs : List SpanEvent) :
    plainEvents (spanEvents evs) = [] := by
  induction evs with
  | nil => rfl
  | cons e es ih => simp [plainEvents, spanEvents, Event.isSpan]

@[simp] theorem plainEvents_recv (r : RecvOutcome) (tr : List Event) :
    plainEvents (Event.recv r :: tr) = Event.recv r :: plainEvents tr := by
  simp [plainEvents, Event.isSpan]

@[simp] theorem plainEvents_log (line : String) (tr : List Event) :
    plainEvents (Event.log line :: tr) = Event.log line :: plainEvents tr := by
  simp [plainEvents, Event.isSpan]

@[simp] theorem plainEvents_closeWaitc (tr : List Event) :
    plainEvents (Event.closeWaitc :: tr) = Event.closeWaitc :: plainEvents tr := by
  simp [plainEvents, Event.isSpan]

@[simp] theorem count_closeWaitc_spanEvents (evs : List SpanEvent) :
    (spanEvents evs).count Event.closeWaitc = 0 := by
  induction evs with
  | nil => rfl
  | cons e es ih => simpa [spanEvents, List.count_cons] using ih

/-- The loop of `receiveMessages`, for any tracer: it is left exactly when the script
has a terminal outcome, it never closes `waitc`, and apart from the tracer operations
its events are a `Recv` and a log line for each leading message, then the terminal
`Recv` and its log line. -/
theorem receiveLoop_plain {σ : Type} (T : Tracer σ) :
    ∀ (recvs : List RecvOutcome) (ts : σ),
      (receiveLoop T recvs ts).1 = (firstTerminal recvs).isSome
      ∧ (receiveLoop T recvs ts).2.2.count Event.closeWaitc = 0
      ∧ plainEvents (receiveLoop T recvs ts).2.2
        = (leadingMsgs recvs).flatMap (fun m => [Event.recv (RecvOutcome.msg m),
            Event.log ("Received message from " ++ m.User ++ ": " ++ m.Message)])
          ++ (match firstTerminal recvs with
              | some err => [Event.recv (RecvOutcome.fail err),
                  Event.log (if err = GoError.EOF then "Server closed the stream"
                    else "Error receiving message: " ++ err.Error)]
              | none => []) := by
  intro recvs
  induction recvs with
  | nil => intro ts; simp [receiveLoop, firstTerminal, leadingMsgs]
  | cons r rest ih =>
      intro ts
      cases r with
      | fail err =>
          by_cases h : err = GoError.EOF <;>
            simp [receiveLoop, firstTerminal, leadingMsgs, h, List.count_cons]
      | msg m =>
          obtain ⟨ih1, ih2, ih3⟩ := ih (T.End (T.Start "ChatClient" Ctx.background "ReceiveMessage" ts).1
            (T.SetAttributes (T.Start "ChatClient" Ctx.background "ReceiveMessage" ts).1
              enduserID m.User
              (T.Start "ChatClient" Ctx.background "ReceiveMessage" ts).2.1).1).1
          simp only [receiveLoop, firstTerminal, leadingMsgs, List.flatMap_cons]
          refine ⟨ih1, ?_, ?_⟩
          · simp [List.count_cons, ih2]
          · simp [ih3]

/-- Apart from the tracer operations, the events of `receiveMessages`. -/
theorem receiveMessages_plain {σ : Type} (T : Tracer σ) (recvs : List RecvOutcome) (ts : σ) :
    plainEvents (receiveMessages T recvs ts).2.2
      = (leadingMsgs recvs).flatMap (fun m => [Event.recv (RecvOutcome.msg m),
          Event.log ("Received message from " ++ m.User ++ ": " ++ m.Message)])
        ++ (match firstTerminal recvs with
            | some err => [Event.recv (RecvOutcome.fail err),
                Event.log (if err = GoError.EOF then "Server closed the stream"
                  else "Error receiving message: " ++ err.Error),
                Event.closeWaitc]
            | none => []) := by
  obtain ⟨h1, -, h3⟩ := receiveLoop_plain T recvs ts
  cases hft : firstTerminal recvs with
  | none => simp [receiveMessages, h1, hft, h3]
  | some err => simp [receiveMessages, h1, hft, h3]

/-- A `Recv` script is its leading messages followed, if it has a terminal outcome, by
that outcome and the rest. -/
theorem recvs_split : ∀ recvs : List RecvOutcome,
    ∃ rest, recvs = (leadingMsgs recvs).map RecvOutcome.msg
      ++ (match firstTerminal recvs with
          | some err => RecvOutcome.fail err :: rest
          | none => []) := by
  intro recvs
  induction recvs with
  | nil => exact ⟨[], by simp [leadingMsgs, firstTerminal]⟩
  | cons r rest ih =>
      cases r with
      | fail err => exact ⟨rest, by simp [leadingMsgs, firstTerminal]⟩
      | msg m =>
          obtain ⟨rest2, h⟩ := ih
          exact ⟨rest2, by simpa [leadingMsgs, firstTerminal] using h⟩

/-- C6: for every script of `Recv` outcomes, read as its leading messages followed by
its first terminal outcome (if any) and whatever comes after, and under any tracer:
apart from the tracer operations the events of `receiveMessages` are, for each leading
message in order, its `Recv` and the log line with its sender and text, then, if the
script has a terminal outcome, the `Recv` yielding it, one log line and the closing of
`waitc`, and nothing more: no `Recv` follows the terminal one. `waitc` is closed
exactly once, by the last event, when the script has a terminal outcome, be it
`io.EOF` or an error, and `receiveMessages` returns exactly then; otherwise it is
blocked in `Recv` and `waitc` is not closed. -/
theorem C6_receive_until_terminal {σ : Type} (T : Tracer σ) (recvs : List RecvOutcome)
    (ts : σ) :
    (∃ rest, recvs = (leadingMsgs recvs).map RecvOutcome.msg
      ++ (match firstTerminal recvs with
          | some err => RecvOutcome.fail err :: rest
          | none => []))
    ∧ plainEvents (receiveMessages T recvs ts).2.2
      = (leadingMsgs recvs).flatMap (fun m => [Event.recv (RecvOutcome.msg m),
          Event.log ("Received message from " ++ m.User ++ ": " ++ m.Message)])
        ++ (match firstTerminal recvs with
            | some err => [Event.recv (RecvOutcome.fail err),
                Event.log (if err = GoError.EOF then "Server closed the stream"
                  else "Error receiving message: " ++ err.Error),
                Event.closeWaitc]
            | none => [])
    ∧ (receiveMessages T recvs ts).2.2.count Event.closeWaitc
      = (if (firstTerminal recvs).isSome then 1 else 0)
    ∧ ((firstTerminal recvs).isSome = true →
        (receiveMessages T recvs ts).2.2.getLast? = some Event.closeWaitc)
    ∧ (receiveMessages T recvs ts).1 = (firstTerminal recvs).isSome := by
  obtain ⟨h1, h2, -⟩ := receiveLoop_plain T recvs ts
  refine ⟨recvs_split recvs, receiveMessages_plain T recvs ts, ?_, ?_, ?_⟩
  · cases hft : firstTerminal recvs with
    | none => simp [receiveMessages, h1, hft, h2]
    | some err => simp [receiveMessages, h1, hft, h2]
  · intro hft
    simp [receiveMessages, h1, hft]
  · cases hft : firstTerminal recvs with
    | none => simp [receiveMessages, h1, hft]
    | some err => simp [receiveMessages, h1, hft]

/-! ## The client process -/

/-- When the main goroutine makes a step in an execution, the steps it made before
are exactly the events that precede this one in its program order. -/
theorem interleave_main_order :
    ∀ (sched : List Tid) (ms rs : List Event) (spawned closed : Bool)
      (pre : List (Tid × Event)) (x : Event) (post : List (Tid × Event)),
      interleave sched ms rs spawned closed = pre ++ (Tid.main, x) :: post →
      ∃ b, ms = eventsOf Tid.main pre ++ x :: b := by
  intro sched
  induction sched with
  | nil =>
      intro ms rs spawned closed pre x post h
      simp [interleave] at h
  | cons t sched ih =>
      intro ms rs spawned closed pre x post h
      cases ms with
      | nil => simp [interleave] at h
      | cons m ms =>
          cases t with
          | main =>
              simp only [interleave] at h
              split at h
              · exact ih _ _ _ _ pre x post h
              · cases pre with
                | nil =>
                    simp at h
                    exact ⟨ms, by simp [eventsOf, h.1]⟩
                | cons p pre =>
                    simp at h
                    obtain ⟨b, hb⟩ := ih _ _ _ _ pre x post h.2
                    exact ⟨b, by simp [eventsOf, ← h.1, hb]⟩
          | receiver =>
              cases rs with
              | nil =>
                  simp only [interleave] at h
                  exact ih _ _ _ _ pre x post h
              | cons r rs =>
                  simp only [interleave] at h
                  split at h
                  · cases pre with
                    | nil => simp at h
                    | cons p pre =>
                        simp at h
                        obtain ⟨b, hb⟩ := ih _ _ _ _ pre x post h.2
                        exact ⟨b, by simp [eventsOf, ← h.1, hb]⟩
                  · exact ih _ _ _ _ pre x post h

/-- The receive `<-waitc` returns in an execution only when `waitc` is closed: it was
closed at the start or the receiver closed it earlier in the execution. -/
theorem interleave_await :
    ∀ (sched : List Tid) (ms rs : List Event) (spawned closed : Bool)
      (pre post : List (Tid × Event)),
      interleave sched ms rs spawned closed = pre ++ (Tid.main, Event.awaitWaitc) :: post →
      closed = true ∨ (Tid.receiver, Event.closeWaitc) ∈ pre := by
  intro sched
  induction sched with
  | nil =>
      intro ms rs spawned closed pre post h
      simp [interleave] at h
  | cons t sched ih =>
      intro ms rs spawned closed pre post h
      cases ms with
      | nil => simp [interleave] at h
      | cons m ms =>
          cases t with
          | main =>
              simp only [interleave] at h
              split at h
              · exact ih _ _ _ _ pre post h
              · rename_i hblocked
                cases pre with
                | nil =>
                    simp at h
                    left
                    cases closed with
                    | true => rfl
                    | false => exact absurd ⟨h.1, rfl⟩ hblocked
                | cons p pre =>
                    simp at h
                    rcases ih _ _ _ _ pre post h.2 with hc | hc
                    · exact Or.inl hc
                    · exact Or.inr (List.mem_cons_of_mem _ hc)
          | receiver =>
              cases rs with
              | nil =>
                  simp only [interleave] at h
                  exact ih _ _ _ _ pre post h
              | cons r rs =>
                  simp only [interleave] at h
                  split at h
                  · cases pre with
                    | nil => simp at h
                    | cons p pre =>
                        simp at h
                        rcases ih _ _ _ _ pre post h.2 with hc | hc
                        · simp at hc
                          rcases hc with hc | hc
                          · exact Or.inl hc
                          · right
                            rw [← h.1, hc]
                            exact List.mem_cons_self _ _
                        · exact Or.inr (List.mem_cons_of_mem _ hc)
                  · exact ih _ _ _ _ pre post h

/-- The main goroutine is not held up before `<-waitc`: given enough turns it reaches
any event of its program that precedes the receive. -/
theorem interleave_main_progress :
    ∀ (sched : List Tid) (a : List Event) (x : Event) (b rs : List Event)
      (spawned closed : Bool),
      Event.awaitWaitc ∉ a → x ≠ Event.awaitWaitc → a.length < sched.count Tid.main →
      (Tid.main, x) ∈ interleave sched (a ++ x :: b) rs spawned closed := by
  intro sched
  induction sched with
  | nil =>
      intro a x b rs spawned closed _ _ h
      simp at h
  | cons t sched ih =>
      intro a x b rs spawned closed ha hx hlen
      cases t with
      | main =>
          cases a with
          | nil =>
              simp [interleave, hx]
          | cons m a =>
              have hm : m ≠ Event.awaitWaitc := fun h => ha (by simp [h])
              have ha2 : Event.awaitWaitc ∉ a := fun h => ha (List.mem_cons_of_mem _ h)
              simp only [List.cons_append, interleave, hm, false_and, if_false]
              refine List.mem_cons_of_mem _ (ih a x b rs _ closed ha2 hx ?_)
              simp [List.count_cons] at hlen
              omega
      | receiver =>
          have hlen2 : a.length < sched.count Tid.main := by
            simpa [List.count_cons] using hlen
          cases hms : a ++ x :: b with
          | nil => simp at hms
          | cons m ms =>
              cases rs with
              | nil =>
                  simp only [interleave]
                  rw [← hms]
                  exact ih a x b [] spawned closed ha hx hlen2
              | cons r rs =>
                  simp only [interleave]
                  split
                  · refine List.mem_cons_of_mem _ ?_
                    rw [← hms]
                    exact ih a x b rs spawned _ ha hx hlen2
                  · rw [← hms]
                    exact ih a x b (r :: rs) spawned closed ha hx hlen2

/-- A list splits in one way only around its one element with a property. -/
theorem split_unique {α : Type} (p : α → Prop) :
    ∀ (a q : List α) (x y : α) (b c : List α),
      (∀ z ∈ q, ¬ p z) → (∀ z ∈ c, ¬ p z) → p x →
      a ++ x :: b = q ++ y :: c → a = q ∧ x = y ∧ b = c := by
  intro a
  induction a with
  | nil =>
      intro q x y b c hq _ hx h
      cases q with
      | nil => simpa using h
      | cons z q =>
          simp at h
          exact absurd (h.1 ▸ hx) (hq z (by simp))
  | cons w a ih =>
      intro q x y b c hq hc hx h
      cases q with
      | nil =>
          simp at h
          exact absurd hx (hc x (by rw [← h.2]; simp))
      | cons z q =>
          simp at h
          obtain ⟨h1, h2, h3⟩ := ih q x y b c (fun z hz => hq z (by simp [hz])) hc hx h.2
          exact ⟨by rw [h.1, h1], h2, h3⟩

theorem mem_of_mem_eventsOf (t : Tid) (x : Event) (G : List (Tid × Event))
    (h : x ∈ eventsOf t G) : (t, x) ∈ G := by
  simp only [eventsOf, List.mem_map, List.mem_filter, decide_eq_true_eq] at h
  obtain ⟨⟨t2, y⟩, ⟨hmem, ht⟩, hx⟩ := h
  simp at ht hx
  subst ht hx
  exact hmem

theorem mem_eventsOf (t : Tid) (x : Event) (G : List (Tid × Event)) (h : (t, x) ∈ G) :
    x ∈ eventsOf t G := by
  simp only [eventsOf, List.mem_map, List.mem_filter, decide_eq_true_eq]
  exact ⟨(t, x), ⟨h, rfl⟩, rfl⟩

theorem eventsOf_append (t : Tid) (G H : List (Tid × Event)) :
    eventsOf t (G ++ H) = eventsOf t G ++ eventsOf t H := by
  simp [eventsOf]

theorem eventsOf_cons_self (t : Tid) (x : Event) (G : List (Tid × Event)) :
    eventsOf t ((t, x) :: G) = x :: eventsOf t G := by
  simp [eventsOf]

theorem spanEvents_isSendUnit (l : List SpanEvent) :
    ∀ ev ∈ spanEvents l, ev.isSendUnit = true := by
  intro ev hl
  simp only [spanEvents, List.mem_map] at hl
  obtain ⟨e, -, he⟩ := hl
  subst he
  rfl

/-- The events of `sendMessages` are log lines, console reads, tracer operations and
`Send` calls. -/
theorem sendMessages_events {σ : Type} (T : Tracer σ) :
    ∀ (lines : List String) (sendRes : Nat → Option GoError) (ts : σ),
      ∀ ev ∈ (sendMessages T lines sendRes ts).2, ev.isSendUnit = true := by
  intro lines
  induction lines with
  | nil =>
      intro sendRes ts
      simp [sendMessages, Event.isSendUnit]
  | cons text rest ih =>
      intro sendRes ts
      by_cases hexit : text = "exit"
      · simp [sendMessages, hexit, Event.isSendUnit]
      · cases hs : sendRes 0 with
        | some err =>
            simp only [sendMessages, hexit, hs, if_false]
            simp only [List.forall_mem_append, List.forall_mem_cons]
            repeat' apply And.intro
            all_goals first
              | rfl
              | exact spanEvents_isSendUnit _
        | none =>
            simp only [sendMessages, hexit, hs, if_false]
            simp only [List.forall_mem_append, List.forall_mem_cons]
            repeat' apply And.intro
            all_goals first
              | rfl
              | exact spanEvents_isSendUnit _
              | exact ih _ _

/-- The program of the main goroutine once the stream is open. -/
theorem main_program (lines : List String) (sendRes : Nat → Option GoError)
    (closeRes : Option GoError) :
    ∃ L, (∀ ev ∈ L, ∃ line, ev = Event.log line)
      ∧ main otelTracer none lines sendRes closeRes 0
        = ([Event.span (SpanEvent.start 0 "ChatClient" Ctx.background "Chat"),
            Event.openStream none, Event.span (SpanEvent.finish 0), Event.makeWaitc, Event.go]
            ++ (sendMessages otelTracer lines sendRes 1).2)
          ++ Event.closeSend closeRes :: (L ++ [Event.awaitWaitc, Event.connClose,
              Event.tpShutdown]) := by
  cases closeRes with
  | none => exact ⟨[], by simp, by simp [main, otelTracer, spanEvents]⟩
  | some err =>
      exact ⟨[Event.log ("Error closing send stream: " ++ err.Error)], by simp,
        by simp [main, otelTracer, spanEvents]⟩

/-- What the main goroutine runs before `CloseSend` contains no `CloseSend`, no
`<-waitc` and no deferred call. -/
theorem main_before_closeSend (lines : List String) (sendRes : Nat → Option GoError) :
    ∀ z ∈ [Event.span (SpanEvent.start 0 "ChatClient" Ctx.background "Chat"),
        Event.openStream none, Event.span (SpanEvent.finish 0), Event.makeWaitc, Event.go]
        ++ (sendMessages otelTracer lines sendRes 1).2,
      z.isCloseSend = false ∧ z ≠ Event.awaitWaitc ∧ z ≠ Event.connClose := by
  intro z hz
  rw [List.mem_append] at hz
  rcases hz with hz | hz
  · simp at hz
    rcases hz with h | h | h | h | h <;> (subst h; simp [Event.isCloseSend])
  · have := sendMessages_events otelTracer lines sendRes 1 z hz
    cases z <;> simp [Event.isSendUnit, Event.isCloseSend] at this ⊢

/-- C5: in every execution of the client whose stream was opened, under every schedule
and for every console input, every assignment of outcomes to `Send` and either outcome
of `CloseSend`: `CloseSend` is called at most once, no `Send` of the main goroutine
follows it, and it is called as soon as the main goroutine has had the turns to run
what precedes it (`sendMessages` always ends: by end of input, by "exit" or by a failed
`Send`); the receive `<-waitc` returns only after `CloseSend` was called and after the
receiver closed `waitc`; and the deferred calls of `main`, which run when it returns,
come only after `<-waitc` has returned, whether `CloseSend` failed or not. In the
program of the main goroutine, between `CloseSend` and `<-waitc` there is at most a
log line. -/
theorem C5_closeSend_then_wait (sched : List Tid) (lines : List String)
    (sendRes : Nat → Option GoError) (closeRes : Option GoError) (recvs : List RecvOutcome) :
    (∀ pre post c,
        client sched none lines sendRes closeRes recvs
          = pre ++ (Tid.main, Event.closeSend c) :: post →
        c = closeRes
        ∧ (∀ c2, (Tid.main, Event.closeSend c2) ∉ pre ∧ (Tid.main, Event.closeSend c2) ∉ post)
        ∧ (∀ m r, (Tid.main, Event.send m r) ∉ post)
        ∧ (Tid.main, Event.awaitWaitc) ∉ pre)
    ∧ (5 + (sendMessages otelTracer lines sendRes 1).2.length < sched.count Tid.main →
        (Tid.main, Event.closeSend closeRes) ∈ client sched none lines sendRes closeRes recvs)
    ∧ (∀ pre post,
        client sched none lines sendRes closeRes recvs
          = pre ++ (Tid.main, Event.awaitWaitc) :: post →
        (Tid.main, Event.closeSend closeRes) ∈ pre ∧ (Tid.receiver, Event.closeWaitc) ∈ pre)
    ∧ (∀ pre post,
        client sched none lines sendRes closeRes recvs
          = pre ++ (Tid.main, Event.connClose) :: post →
        (Tid.main, Event.awaitWaitc) ∈ pre)
    ∧ (∃ L, (∀ ev ∈ L, ∃ line, ev = Event.log line)
        ∧ main otelTracer none lines sendRes closeRes 0
          = ([Event.span (SpanEvent.start 0 "ChatClient" Ctx.background "Chat"),
              Event.openStream none, Event.span (SpanEvent.finish 0), Event.makeWaitc,
              Event.go]
              ++ (sendMessages otelTracer lines sendRes 1).2)
            ++ Event.closeSend closeRes :: (L ++ [Event.awaitWaitc, Event.connClose,
                Event.tpShutdown])) := by
  refine (fun key => ⟨key.1, key.2.1, key.2.2.1, key.2.2.2,
    main_program lines sendRes closeRes⟩ : _ ∧ _ ∧ _ ∧ _ → _) ?_
  obtain ⟨L, hL, hM⟩ := main_program lines sendRes closeRes
  have hbefore := main_before_closeSend lines sendRes
  have hafter : ∀ z ∈ L ++ [Event.awaitWaitc, Event.connClose, Event.tpShutdown],
      z.isCloseSend = false ∧ ∀ m r, z ≠ Event.send m r := by
    intro z hz
    rw [List.mem_append] at hz
    rcases hz with hz | hz
    · obtain ⟨line, h⟩ := hL z hz
      subst h
      simp [Event.isCloseSend]
    · simp at hz
      rcases hz with h | h | h <;> (subst h; simp [Event.isCloseSend])
  have hLlog : ∀ z ∈ L, z ≠ Event.awaitWaitc ∧ z ≠ Event.connClose := by
    intro z hz
    obtain ⟨line, h⟩ := hL z hz
    subst h
    simp
  simp only [client]
  rw [hM]
  generalize hP : [Event.span (SpanEvent.start 0 "ChatClient" Ctx.background "Chat"),
        Event.openStream none, Event.span (SpanEvent.finish 0), Event.makeWaitc, Event.go]
        ++ (sendMessages otelTracer lines sendRes 1).2 = P at *
  generalize (receiveMessages otelTracer recvs 0).2.2 = R
  refine ⟨?_, ?_, ?_, ?_⟩
  · intro pre post c hG
    obtain ⟨b, hb⟩ := interleave_main_order _ _ _ _ _ pre _ post hG
    obtain ⟨h1, h2, h3⟩ := split_unique (fun z => z.isCloseSend = true) _ P _ _ _ _
      (fun z hz => by simp [(hbefore z hz).1]) (fun z hz => by simp [(hafter z hz).1])
      (by rfl) hb.symm
    have hpost : ∀ z, (Tid.main, z) ∈ post →
        z ∈ L ++ [Event.awaitWaitc, Event.connClose, Event.tpShutdown] := by
      intro z hz
      obtain ⟨p1, p2, hp⟩ := List.append_of_mem hz
      have hG2 : interleave sched
          (P ++ Event.closeSend closeRes
            :: (L ++ [Event.awaitWaitc, Event.connClose, Event.tpShutdown])) R false false
          = (pre ++ (Tid.main, Event.closeSend c) :: p1) ++ (Tid.main, z) :: p2 := by
        rw [hG, hp]
        simp
      obtain ⟨b2, hb2⟩ := interleave_main_order _ _ _ _ _ _ _ _ hG2
      rw [eventsOf_append, eventsOf_cons_self, h1, List.append_assoc] at hb2
      have := List.append_cancel_left hb2
      simp only [List.cons_append, List.cons.injEq] at this
      rw [this.2]
      simp
    refine ⟨by simpa using h2, ?_, ?_, ?_⟩
    · intro c2
      constructor
      · intro hmem
        have := (hbefore _ (h1 ▸ mem_eventsOf _ _ _ hmem)).1
        simp [Event.isCloseSend] at this
      · intro hmem
        have := (hafter _ (hpost _ hmem)).1
        simp [Event.isCloseSend] at this
    · intro m r hmem
      exact (hafter _ (hpost _ hmem)).2 m r rfl
    · intro hmem
      exact (hbefore _ (h1 ▸ mem_eventsOf _ _ _ hmem)).2.1 rfl
  · intro hlen
    apply interleave_main_progress
    · intro h
      exact (hbefore _ h).2.1 rfl
    · simp
    · rw [← hP]
      simp
      omega
  · intro pre post hG
    obtain ⟨b, hb⟩ := interleave_main_order _ _ _ _ _ pre _ post hG
    have hb2 : eventsOf Tid.main pre ++ Event.awaitWaitc :: b
        = (P ++ Event.closeSend closeRes :: L) ++ Event.awaitWaitc
          :: [Event.connClose, Event.tpShutdown] := by
      rw [← hb]
      simp
    obtain ⟨h1, -, -⟩ := split_unique (fun z => z = Event.awaitWaitc) _ _ _ _ _ _
      (fun z hz => by
        rw [List.mem_append] at hz
        rcases hz with hz | hz
        · exact (hbefore z hz).2.1
        · simp at hz
          rcases hz with h | h
          · subst h; simp
          · exact (hLlog z h).1)
      (fun z hz => by
        simp at hz
        rcases hz with h | h <;> (subst h; simp))
      rfl hb2
    constructor
    · apply mem_of_mem_eventsOf
      rw [h1]
      simp
    · rcases interleave_await _ _ _ _ _ pre post hG with h | h
      · simp at h
      · exact h
  · intro pre post hG
    obtain ⟨b, hb⟩ := interleave_main_order _ _ _ _ _ pre _ post hG
    have hb2 : eventsOf Tid.main pre ++ Event.connClose :: b
        = (P ++ Event.closeSend closeRes :: L ++ [Event.awaitWaitc]) ++ Event.connClose
          :: [Event.tpShutdown] := by
      rw [← hb]
      simp
    obtain ⟨h1, -, -⟩ := split_unique (fun z => z = Event.connClose) _ _ _ _ _ _
      (fun z hz => by
        simp only [List.mem_append, List.mem_cons, List.mem_singleton, List.not_mem_nil,
          or_false] at hz
        rcases hz with (hz | hz | hz) | hz
        · exact (hbefore z hz).2.2
        · subst hz; simp
        · exact (hLlog z hz).2
        · subst hz; simp)
      (fun z hz => by
        simp at hz
        subst hz
        simp)
      rfl hb2
    apply mem_of_mem_eventsOf
    rw [h1]
    simp

/-- When the receiver makes a step in an execution, the `go` statement has been
executed, and the steps the receiver made before are exactly the events that precede
this one in its program order. -/
theorem interleave_receiver_order :
    ∀ (sched : List Tid) (ms rs : List Event) (spawned closed : Bool)
      (pre : List (Tid × Event)) (x : Event) (post : List (Tid × Event)),
      interleave sched ms rs spawned closed = pre ++ (Tid.receiver, x) :: post →
      (∃ b, rs = eventsOf Tid.receiver pre ++ x :: b)
      ∧ (spawned = true ∨ (Tid.main, Event.go) ∈ pre) := by
  intro sched
  induction sched with
  | nil =>
      intro ms rs spawned closed pre x post h
      simp [interleave] at h
  | cons t sched ih =>
      intro ms rs spawned closed pre x post h
      cases ms with
      | nil => simp [interleave] at h
      | cons m ms =>
          cases t with
          | main =>
              simp only [interleave] at h
              split at h
              · exact ih _ _ _ _ pre x post h
              · cases pre with
                | nil => simp at h
                | cons p pre =>
                    simp at h
                    obtain ⟨⟨b, hb⟩, hsp⟩ := ih _ _ _ _ pre x post h.2
                    refine ⟨⟨b, by simp [eventsOf, ← h.1, hb]⟩, ?_⟩
                    rcases hsp with hsp | hsp
                    · simp at hsp
                      rcases hsp with hsp | hsp
                      · exact Or.inl hsp
                      · right
                        rw [← h.1, hsp]
                        exact List.mem_cons_self _ _
                    · exact Or.inr (List.mem_cons_of_mem _ hsp)
          | receiver =>
              cases rs with
              | nil =>
                  simp only [interleave] at h
                  obtain ⟨⟨b, hb⟩, -⟩ := ih _ _ _ _ pre x post h
                  simp at hb
              | cons r rs =>
                  simp only [interleave] at h
                  split at h
                  · rename_i hsp
                    cases pre with
                    | nil =>
                        simp at h
                        exact ⟨⟨rs, by simp [eventsOf, h.1]⟩, Or.inl hsp⟩
                    | cons p pre =>
                        simp at h
                        obtain ⟨⟨b, hb⟩, -⟩ := ih _ _ _ _ pre x post h.2
                        exact ⟨⟨b, by simp [eventsOf, ← h.1, hb]⟩, Or.inl hsp⟩
                  · exact ih _ _ _ _ pre x post h

/-- Every event of an execution is an event of the program of its goroutine. -/
theorem interleave_mem :
    ∀ (sched : List Tid) (ms rs : List Event) (spawned closed : Bool) (t : Tid) (x : Event),
      (t, x) ∈ interleave sched ms rs spawned closed →
      (t = Tid.main ∧ x ∈ ms) ∨ (t = Tid.receiver ∧ x ∈ rs) := by
  intro sched
  induction sched with
  | nil =>
      intro ms rs spawned closed t x h
      simp [interleave] at h
  | cons t0 sched ih =>
      intro ms rs spawned closed t x h
      cases ms with
      | nil => simp [interleave] at h
      | cons m ms =>
          cases t0 with
          | main =>
              simp only [interleave] at h
              split at h
              · exact ih _ _ _ _ t x h
              · simp only [List.mem_cons, Prod.mk.injEq] at h
                rcases h with h | h
                · exact Or.inl ⟨h.1, by simp [h.2]⟩
                · rcases ih _ _ _ _ t x h with h2 | h2
                  · exact Or.inl ⟨h2.1, List.mem_cons_of_mem _ h2.2⟩
                  · exact Or.inr h2
          | receiver =>
              cases rs with
              | nil =>
                  simp only [interleave] at h
                  exact ih _ _ _ _ t x h
              | cons r rs =>
                  simp only [interleave] at h
                  split at h
                  · simp only [List.mem_cons, Prod.mk.injEq] at h
                    rcases h with h | h
                    · exact Or.inr ⟨h.1, by simp [h.2]⟩
                    · rcases ih _ _ _ _ t x h with h2 | h2
                      · exact Or.inl h2
                      · exact Or.inr ⟨h2.1, List.mem_cons_of_mem _ h2.2⟩
                  · exact ih _ _ _ _ t x h

/-- Under the recording tracer `receiveMessages` records no error on any span. -/
theorem receiveMessages_noRecordError :
    ∀ (recvs : List RecvOutcome) (n : Nat),
      NoRecordError (receiveMessages otelTracer recvs n).2.2 := by
  have hloop : ∀ (recvs : List RecvOutcome) (n : Nat),
      NoRecordError (receiveLoop otelTracer recvs n).2.2 := by
    intro recvs
    induction recvs with
    | nil => intro n; simp [receiveLoop, NoRecordError]
    | cons r rest ih =>
        intro n
        cases r with
        | fail err =>
            by_cases h : err = GoError.EOF <;>
              simp [receiveLoop, h, NoRecordError, Event.isRecordError]
        | msg m =>
            have := ih (n + 1)
            simp only [NoRecordError] at this ⊢
            simp only [receiveLoop, otelTracer, spanEvents, List.map_cons, List.map_nil]
            simp only [List.forall_mem_append, List.forall_mem_cons]
            simp [Event.isRecordError]
            exact this
  intro recvs n
  have := hloop recvs n
  simp only [NoRecordError] at this ⊢
  simp only [receiveMessages]
  split
  · simp only [List.forall_mem_append, List.forall_mem_cons]
    exact ⟨this, rfl, by simp⟩
  · exact this

/-- Under the recording tracer started at span number `n`, the tracer operations of
`sendMessages` are about spans numbered `n` or more. -/
theorem sendMessages_spans :
    ∀ (lines : List String) (sendRes : Nat → Option GoError) (n : Nat),
      ∀ ev ∈ (sendMessages otelTracer lines sendRes n).2, ∀ s, ev.spanOf = some s → n ≤ s := by
  intro lines
  induction lines with
  | nil =>
      intro sendRes n
      simp [sendMessages, Event.spanOf]
  | cons text rest ih =>
      intro sendRes n
      by_cases hexit : text = "exit"
      · simp [sendMessages, hexit, Event.spanOf]
      · rw [sendMessages_otel_cons text rest sendRes n hexit]
        cases hs : sendRes 0 with
        | some err => simp [Event.spanOf]
        | none =>
            have := ih (fun k => sendRes (k + 1)) (n + 1)
            simp only [List.forall_mem_append, List.forall_mem_cons]
            simp [Event.spanOf]
            intro ev hev s hs
            have := this ev hev s hs
            omega

/-- The steps of the receiver in an execution are an initial stretch of its program. -/
theorem interleave_receiver_events :
    ∀ (sched : List Tid) (ms rs : List Event) (spawned closed : Bool),
      eventsOf Tid.receiver (interleave sched ms rs spawned closed) <+: rs := by
  intro sched
  induction sched with
  | nil =>
      intro ms rs spawned closed
      simp [interleave, eventsOf]
  | cons t sched ih =>
      intro ms rs spawned closed
      cases ms with
      | nil => simp [interleave, eventsOf]
      | cons m ms =>
          cases t with
          | main =>
              simp only [interleave]
              split
              · exact ih _ _ _ _
              · have : eventsOf Tid.receiver ((Tid.main, m) :: interleave sched ms rs
                    (spawned || decide (m = Event.go)) closed)
                    = eventsOf Tid.receiver (interleave sched ms rs
                      (spawned || decide (m = Event.go)) closed) := by
                  simp [eventsOf]
                rw [this]
                exact ih _ _ _ _
          | receiver =>
              cases rs with
              | nil =>
                  simp only [interleave]
                  exact ih _ _ _ _
              | cons r rs =>
                  simp only [interleave]
                  split
                  · rw [eventsOf_cons_self]
                    exact (List.prefix_cons_inj r).mpr (ih _ _ _ _)
                  · exact ih _ _ _ _

/-- The events of `receiveMessages`: events none of which is a failing `Recv`, then, if
the script has a terminal outcome, the `Recv` yielding it, a log line and the closing
of `waitc`. -/
theorem receiveMessages_shape {σ : Type} (T : Tracer σ) :
    ∀ (recvs : List RecvOutcome) (ts : σ),
      ∃ X, (∀ z ∈ X, ¬ z.isRecvFail = true)
        ∧ Event.closeWaitc ∉ X
        ∧ (receiveMessages T recvs ts).2.2
          = X ++ (match firstTerminal recvs with
              | some err => [Event.recv (RecvOutcome.fail err),
                  Event.log (if err = GoError.EOF then "Server closed the stream"
                    else "Error receiving message: " ++ err.Error),
                  Event.closeWaitc]
              | none => []) := by
  have hspan : ∀ (l : List SpanEvent), ∀ z ∈ spanEvents l, ¬ z.isRecvFail = true := by
    intro l z hz
    simp only [spanEvents, List.mem_map] at hz
    obtain ⟨e, -, he⟩ := hz
    subst he
    simp [Event.isRecvFail]
  have hloop : ∀ (recvs : List RecvOutcome) (ts : σ),
      ∃ X, (∀ z ∈ X, ¬ z.isRecvFail = true)
        ∧ (receiveLoop T recvs ts).2.2
          = X ++ (match firstTerminal recvs with
              | some err => [Event.recv (RecvOutcome.fail err),
                  Event.log (if err = GoError.EOF then "Server closed the stream"
                    else "Error receiving message: " ++ err.Error)]
              | none => []) := by
    intro recvs
    induction recvs with
    | nil => intro ts; exact ⟨[], by simp, by simp [receiveLoop, firstTerminal]⟩
    | cons r rest ih =>
        intro ts
        cases r with
        | fail err =>
            refine ⟨[], by simp, ?_⟩
            by_cases h : err = GoError.EOF <;> simp [receiveLoop, firstTerminal, h]
        | msg m =>
            obtain ⟨X, hX, hrest⟩ := ih (T.End (T.Start "ChatClient" Ctx.background
              "ReceiveMessage" ts).1 (T.SetAttributes (T.Start "ChatClient" Ctx.background
              "ReceiveMessage" ts).1 enduserID m.User (T.Start "ChatClient" Ctx.background
              "ReceiveMessage" ts).2.1).1).1
            refine ⟨Event.recv (RecvOutcome.msg m)
              :: spanEvents (T.Start "ChatClient" Ctx.background "ReceiveMessage" ts).2.2
              ++ spanEvents (T.SetAttributes (T.Start "ChatClient" Ctx.background
                "ReceiveMessage" ts).1 enduserID m.User (T.Start "ChatClient" Ctx.background
                "ReceiveMessage" ts).2.1).2
              ++ Event.log ("Received message from " ++ m.User ++ ": " ++ m.Message)
              :: spanEvents (T.End (T.Start "ChatClient" Ctx.background
                "ReceiveMessage" ts).1 (T.SetAttributes (T.Start "ChatClient" Ctx.background
                "ReceiveMessage" ts).1 enduserID m.User (T.Start "ChatClient" Ctx.background
                "ReceiveMessage" ts).2.1).1).2 ++ X, ?_, ?_⟩
            · simp only [List.forall_mem_append, List.forall_mem_cons]
              refine ⟨⟨⟨⟨by simp [Event.isRecvFail], hspan _⟩, hspan _⟩,
                by simp [Event.isRecvFail], hspan _⟩, hX⟩
            · simp only [receiveLoop, firstTerminal, hrest]
              simp
  intro recvs ts
  obtain ⟨X, hX, hbody⟩ := hloop recvs ts
  obtain ⟨h1, h2, -⟩ := receiveLoop_plain T recvs ts
  have hXc : Event.closeWaitc ∉ X := by
    intro hmem
    have hpos : 0 < (receiveLoop T recvs ts).2.2.count Event.closeWaitc := by
      rw [hbody]
      exact List.count_pos_iff.mpr (List.mem_append_left _ hmem)
    omega
  refine ⟨X, hX, hXc, ?_⟩
  cases hft : firstTerminal recvs with
  | none => simp [receiveMessages, h1, hft, hbody]
  | some err => simp [receiveMessages, h1, hft, hbody]

/-- Once started, the receiver is not held up while the main goroutine still has
`<-waitc` ahead and `waitc` is open: given enough turns it reaches any event of its
program up to and including the closing of `waitc`. -/
theorem interleave_receiver_progress :
    ∀ (sched : List Tid) (ms a : List Event) (x : Event) (b : List Event),
      Event.awaitWaitc ∈ ms → Event.closeWaitc ∉ a → a.length < sched.count Tid.receiver →
      (Tid.receiver, x) ∈ interleave sched ms (a ++ x :: b) true false := by
  intro sched
  induction sched with
  | nil =>
      intro ms a x b _ _ h
      simp at h
  | cons t sched ih =>
      intro ms a x b hms ha hlen
      cases ms with
      | nil => simp at hms
      | cons m ms =>
          cases t with
          | main =>
              have hlen2 : a.length < sched.count Tid.receiver := by
                simpa [List.count_cons] using hlen
              simp only [interleave]
              split
              · exact ih _ a x b hms ha hlen2
              · rename_i hnb
                have hm : m ≠ Event.awaitWaitc := fun h => hnb ⟨h, trivial⟩
                have hms2 : Event.awaitWaitc ∈ ms := by
                  rcases List.mem_cons.mp hms with h | h
                  · exact absurd h.symm hm
                  · exact h
                refine List.mem_cons_of_mem _ ?_
                simpa using ih ms a x b hms2 ha hlen2
          | receiver =>
              cases a with
              | nil => simp [interleave]
              | cons r a =>
                  have hr : r ≠ Event.closeWaitc := fun h => ha (by simp [h])
                  have ha2 : Event.closeWaitc ∉ a := fun h => ha (List.mem_cons_of_mem _ h)
                  simp only [List.cons_append, interleave, if_true]
                  refine List.mem_cons_of_mem _ ?_
                  have := ih (m :: ms) a x b hms ha2 (by
                    simp [List.count_cons] at hlen
                    omega)
                  simpa [hr] using this

/-- Before the `go` statement only the main goroutine moves: what the receiver does in
what is left of the schedule after the main goroutine's turns up to `go`, it does in
the whole schedule. -/
theorem interleave_spawn :
    ∀ (sched : List Tid) (a ms rs : List Event) (closed : Bool) (y : Tid × Event),
      Event.go ∉ a → Event.awaitWaitc ∉ a →
      y ∈ interleave (afterMainTurns (a.length + 1) sched) ms rs true closed →
      y ∈ interleave sched (a ++ Event.go :: ms) rs false closed := by
  intro sched
  induction sched with
  | nil =>
      intro a ms rs closed y _ _ h
      simp [afterMainTurns, interleave] at h
  | cons t sched ih =>
      intro a ms rs closed y hgo haw h
      cases t with
      | main =>
          cases a with
          | nil =>
              simp only [List.length_nil, Nat.zero_add, afterMainTurns] at h
              simp only [List.nil_append, interleave, reduceCtorEq, false_and, if_false]
              refine List.mem_cons_of_mem _ ?_
              simpa using h
          | cons m a =>
              have hm1 : m ≠ Event.go := fun h => hgo (by simp [h])
              have hm2 : m ≠ Event.awaitWaitc := fun h => haw (by simp [h])
              simp only [List.length_cons, afterMainTurns] at h
              simp only [List.cons_append, interleave, hm2, false_and, if_false]
              refine List.mem_cons_of_mem _ ?_
              have := ih a ms rs closed y (fun h => hgo (List.mem_cons_of_mem _ h))
                (fun h => haw (List.mem_cons_of_mem _ h)) h
              simpa [hm1] using this
      | receiver =>
          simp only [afterMainTurns] at h
          have hrec := ih a ms rs closed y hgo haw h
          cases hms : a ++ Event.go :: ms with
          | nil => simp at hms
          | cons m ms2 =>
              rw [hms] at hrec
              cases rs with
              | nil =>
                  simp only [interleave]
                  exact hrec
              | cons r rs =>
                  simp only [interleave, Bool.false_eq_true, if_false]
                  exact hrec

/-- What the main goroutine runs after the `go` statement contains no `go`, no `End`
of span 0 and no `RecordError` on span 0. -/
theorem main_after_go (lines : List String) (sendRes : Nat → Option GoError)
    (closeRes : Option GoError) (L : List Event) (hL : ∀ ev ∈ L, ∃ line, ev = Event.log line) :
    ∀ z ∈ (sendMessages otelTracer lines sendRes 1).2
        ++ Event.closeSend closeRes
          :: (L ++ [Event.awaitWaitc, Event.connClose, Event.tpShutdown]),
      z ≠ Event.go ∧ z.spanOf ≠ some 0 := by
  intro z hz
  simp only [List.mem_append, List.mem_cons, List.mem_singleton, List.not_mem_nil,
    or_false] at hz
  rcases hz with hz | hz | hz | hz | hz | hz
  · have h1 := sendMessages_events otelTracer lines sendRes 1 z hz
    have h2 := sendMessages_spans lines sendRes 1 z hz 0
    refine ⟨?_, ?_⟩
    · intro h
      subst h
      simp [Event.isSendUnit] at h1
    · intro h
      have := h2 h
      omega
  · subst hz; simp [Event.spanOf]
  · obtain ⟨line, h⟩ := hL z hz
    subst h
    simp [Event.spanOf]
  · subst hz; simp [Event.spanOf]
  · subst hz; simp [Event.spanOf]
  · subst hz; simp [Event.spanOf]

/-- C9, as stated, fails: in the execution `dropRun`, where `Recv` yields two replies
and then a transport error and the client runs to the end of `main`, the failing
`Recv` is made and span 0 (the span "Chat" of `main`) is ended, but no event of the
execution records an error on any span. -/
theorem C9_counterexample :
    (Tid.main, Event.span (SpanEvent.start 0 "ChatClient" Ctx.background "Chat")) ∈ dropRun
    ∧ (Tid.receiver, Event.recv (RecvOutcome.fail (GoError.other "transport is closing")))
        ∈ dropRun
    ∧ (Tid.main, Event.span (SpanEvent.finish 0)) ∈ dropRun
    ∧ dropRun.getLast? = some (Tid.main, Event.tpShutdown)
    ∧ ∀ x ∈ dropRun, x.2.isRecordError = false := by
  decide

/-- C9, amended: in every execution of the client whose stream was opened, under every
schedule: after a `Recv` of the receiver that yields an error `e`, the first terminal
outcome of the script, the receiver makes no other `Recv`: all it does is log the
error and close `waitc`; no error is recorded on span 0, the span "Chat" of `main`;
span 0 is ended at most once, and is ended once the main goroutine has had three
turns; it is ended before the receiver makes its first step; and when the script has a
terminal outcome `e` and the schedule gives the receiver, after the main goroutine's
turn for the `go` statement, as many turns as its program has events, the receiver
does make the `Recv` yielding `e`, log it and close `waitc`. -/
theorem C9_receive_error_not_recorded (sched : List Tid) (lines : List String)
    (sendRes : Nat → Option GoError) (closeRes : Option GoError) (recvs : List RecvOutcome) :
    (∀ pre post e,
        client sched none lines sendRes closeRes recvs
          = pre ++ (Tid.receiver, Event.recv (RecvOutcome.fail e)) :: post →
        firstTerminal recvs = some e
        ∧ (∀ r, (Tid.receiver, Event.recv r) ∉ post)
        ∧ eventsOf Tid.receiver post
          <+: [Event.log (if e = GoError.EOF then "Server closed the stream"
                else "Error receiving message: " ++ e.Error),
              Event.closeWaitc])
    ∧ (∀ e, (Tid.main, Event.span (SpanEvent.recordError 0 e))
          ∉ client sched none lines sendRes closeRes recvs)
    ∧ (∀ pre post,
        client sched none lines sendRes closeRes recvs
          = pre ++ (Tid.main, Event.span (SpanEvent.finish 0)) :: post →
        (Tid.main, Event.span (SpanEvent.finish 0)) ∉ pre
        ∧ (Tid.main, Event.span (SpanEvent.finish 0)) ∉ post)
    ∧ (2 < sched.count Tid.main →
        (Tid.main, Event.span (SpanEvent.finish 0))
          ∈ client sched none lines sendRes closeRes recvs)
    ∧ (∀ pre post x,
        client sched none lines sendRes closeRes recvs = pre ++ (Tid.receiver, x) :: post →
        (Tid.main, Event.span (SpanEvent.finish 0)) ∈ pre)
    ∧ (∀ e, firstTerminal recvs = some e →
        (receiveMessages otelTracer recvs 0).2.2.length
          ≤ (afterMainTurns 5 sched).count Tid.receiver →
        (Tid.receiver, Event.recv (RecvOutcome.fail e))
            ∈ client sched none lines sendRes closeRes recvs
        ∧ (Tid.receiver, Event.log (if e = GoError.EOF then "Server closed the stream"
              else "Error receiving message: " ++ e.Error))
            ∈ client sched none lines sendRes closeRes recvs
        ∧ (Tid.receiver, Event.closeWaitc)
            ∈ client sched none lines sendRes closeRes recvs) := by
  obtain ⟨L, hL, hM⟩ := main_program lines sendRes closeRes
  have hrest := main_after_go lines sendRes closeRes L hL
  obtain ⟨X, hX, hXc, hR⟩ := receiveMessages_shape otelTracer recvs 0
  simp only [client]
  rw [hM]
  simp only [List.cons_append, List.nil_append, List.append_assoc] at hrest ⊢
  have hawait : Event.awaitWaitc ∈ (sendMessages otelTracer lines sendRes 1).2
      ++ Event.closeSend closeRes
        :: (L ++ [Event.awaitWaitc, Event.connClose, Event.tpShutdown]) := by
    simp
  generalize (sendMessages otelTracer lines sendRes 1).2
      ++ Event.closeSend closeRes
        :: (L ++ [Event.awaitWaitc, Event.connClose, Event.tpShutdown]) = rest at *
  generalize (receiveMessages otelTracer recvs 0).2.2 = R at *
  refine ⟨?_, ?_, ?_, ?_, ?_, ?_⟩
  rotate_left 5
  · intro e hft hturns
    rw [hft] at hR
    have hspawn : ∀ y, y ∈ interleave (afterMainTurns 5 sched) rest R true false →
        y ∈ interleave sched
          (Event.span (SpanEvent.start 0 "ChatClient" Ctx.background "Chat")
            :: Event.openStream none :: Event.span (SpanEvent.finish 0) :: Event.makeWaitc
            :: Event.go :: rest) R false false :=
      fun y h => interleave_spawn sched
        [Event.span (SpanEvent.start 0 "ChatClient" Ctx.background "Chat"),
          Event.openStream none, Event.span (SpanEvent.finish 0), Event.makeWaitc]
        rest R false y (by simp) (by simp) h
    have hlenR : R.length = X.length + 3 := by
      rw [hR]
      simp
    refine ⟨?_, ?_, ?_⟩
    · apply hspawn
      have hsplit : R = X ++ Event.recv (RecvOutcome.fail e)
          :: [Event.log (if e = GoError.EOF then "Server closed the stream"
              else "Error receiving message: " ++ e.Error), Event.closeWaitc] := hR
      rw [hsplit]
      exact interleave_receiver_progress _ rest X _ _ hawait hXc (by omega)
    · apply hspawn
      have hsplit : R = (X ++ [Event.recv (RecvOutcome.fail e)])
          ++ Event.log (if e = GoError.EOF then "Server closed the stream"
              else "Error receiving message: " ++ e.Error) :: [Event.closeWaitc] := by
        rw [hR]
        simp
      rw [hsplit]
      exact interleave_receiver_progress _ rest _ _ _ hawait
        (by simp [hXc]) (by simp; omega)
    · apply hspawn
      have hsplit : R = (X ++ [Event.recv (RecvOutcome.fail e),
          Event.log (if e = GoError.EOF then "Server closed the stream"
              else "Error receiving message: " ++ e.Error)])
          ++ Event.closeWaitc :: [] := by
        rw [hR]
        simp
      rw [hsplit]
      exact interleave_receiver_progress _ rest _ _ _ hawait
        (by simp [hXc]) (by simp; omega)
  · intro pre post e hG
    obtain ⟨⟨b, hb⟩, -⟩ := interleave_receiver_order _ _ _ _ _ pre _ post hG
    have hpre := interleave_receiver_events sched
      (Event.span (SpanEvent.start 0 "ChatClient" Ctx.background "Chat")
        :: Event.openStream none :: Event.span (SpanEvent.finish 0) :: Event.makeWaitc
        :: Event.go :: rest) R false false
    rw [hG, eventsOf_append, eventsOf_cons_self] at hpre
    rw [hb] at hpre
    rw [List.prefix_append_right_inj, List.prefix_cons_inj] at hpre
    cases hft : firstTerminal recvs with
    | none =>
        rw [hft] at hR
        simp only [List.append_nil] at hR
        have : Event.recv (RecvOutcome.fail e) ∈ X := by
          rw [← hR, hb]
          simp
        exact absurd rfl (hX _ this)
    | some err =>
        rw [hft] at hR
        obtain ⟨-, h2, h3⟩ := split_unique (fun z => z.isRecvFail = true) _ _ _ _ _ _ hX
          (fun z hz => by
            simp at hz
            rcases hz with h | h <;> (subst h; simp [Event.isRecvFail]))
          (by rfl) (hb.symm.trans hR)
        have he : e = err := by simpa using h2
        subst he
        rw [h3] at hpre
        refine ⟨rfl, ?_, hpre⟩
        intro r hr
        have := hpre.subset (mem_eventsOf _ _ _ hr)
        simp at this
  · intro e hmem
    rcases interleave_mem _ _ _ _ _ _ _ hmem with ⟨-, hx⟩ | ⟨ht, -⟩
    · simp only [List.mem_cons, reduceCtorEq, Event.span.injEq, false_or] at hx
      exact (hrest _ hx).2 rfl
    · simp at ht
  · intro pre post hG
    obtain ⟨b, hb⟩ := interleave_main_order _ _ _ _ _ pre _ post hG
    have hq : ∀ z ∈ [Event.span (SpanEvent.start 0 "ChatClient" Ctx.background "Chat"),
        Event.openStream none], ¬ z = Event.span (SpanEvent.finish 0) := by
      intro z hz
      simp at hz
      rcases hz with h | h <;> (subst h; simp)
    have hc : ∀ z ∈ Event.makeWaitc :: Event.go :: rest,
        ¬ z = Event.span (SpanEvent.finish 0) := by
      intro z hz h
      subst h
      simp only [List.mem_cons, reduceCtorEq, false_or] at hz
      exact (hrest _ hz).2 rfl
    obtain ⟨h1, -, h3⟩ := split_unique (fun z => z = Event.span (SpanEvent.finish 0))
      _ [Event.span (SpanEvent.start 0 "ChatClient" Ctx.background "Chat"),
        Event.openStream none] _ _ _ _ hq hc rfl (by simpa using hb.symm)
    constructor
    · intro hmem
      exact hq _ (h1 ▸ mem_eventsOf _ _ _ hmem) rfl
    · intro hmem
      obtain ⟨p1, p2, hp⟩ := List.append_of_mem hmem
      have hG2 := hG
      rw [hp, ← List.cons_append, ← List.append_assoc] at hG2
      obtain ⟨b2, hb2⟩ := interleave_main_order _ _ _ _ _ _ _ _ hG2
      rw [eventsOf_append, eventsOf_cons_self, List.append_assoc] at hb2
      have hb3 := List.append_cancel_left (hb.symm.trans hb2)
      simp only [List.cons_append, List.cons.injEq, true_and] at hb3
      exact hc (Event.span (SpanEvent.finish 0)) (by rw [← h3, hb3]; simp) rfl
  · intro hlen
    exact interleave_main_progress sched
      [Event.span (SpanEvent.start 0 "ChatClient" Ctx.background "Chat"), Event.openStream none]
      _ _ _ _ _ (by simp) (by simp) (by simpa using hlen)
  · intro pre post x hG
    obtain ⟨-, hsp⟩ := interleave_receiver_order _ _ _ _ _ pre _ post hG
    simp only [Bool.false_eq_true, false_or] at hsp
    obtain ⟨p1, p2, hp⟩ := List.append_of_mem hsp
    have hG2 := hG
    rw [hp, List.append_assoc, List.cons_append] at hG2
    obtain ⟨b, hb⟩ := interleave_main_order _ _ _ _ _ _ _ _ hG2
    obtain ⟨h1, -, -⟩ := split_unique (fun z => z = Event.go)
      _ [Event.span (SpanEvent.start 0 "ChatClient" Ctx.background "Chat"),
        Event.openStream none, Event.span (SpanEvent.finish 0), Event.makeWaitc] _ _ _ _
      (fun z hz => by
        simp at hz
        rcases hz with h | h | h | h <;> (subst h; simp))
      (fun z hz => (hrest z hz).1) rfl (by simpa using hb.symm)
    rw [hp]
    apply List.mem_append_left
    apply mem_of_mem_eventsOf
    rw [h1]
    simp

/-! ## Runs on concrete inputs -/

/-- The run of `Chat` on the message "hello" followed by `io.EOF`. -/
theorem Chat_run_hello :
    Chat otelTracer
        [RecvOutcome.msg { User := "ClientUser", Message := "hello" },
          RecvOutcome.fail GoError.EOF] (fun _ => none) 0
      = (Outcome.returned none, 2,
          [Event.span (SpanEvent.start 0 "ChatService" Ctx.streamContext "Chat"),
            Event.log "Client connected for chat",
            Event.recv (RecvOutcome.msg { User := "ClientUser", Message := "hello" }),
            Event.span (SpanEvent.start 1 "ChatService" Ctx.background "ReceiveMessage"),
            Event.span (SpanEvent.setAttributes 1 "enduser.id" "ClientUser"),
            Event.log "Received message from ClientUser: hello",
            Event.send { User := "Server", Message := "Echo: hello" } none,
            Event.span (SpanEvent.finish 1),
            Event.recv (RecvOutcome.fail GoError.EOF),
            Event.log "Client disconnected",
            Event.span (SpanEvent.finish 0)]) := by
  decide

/-- The run of `Chat` when the `Send` of the first echo fails. -/
theorem Chat_run_send_fails :
    Chat otelTracer
        [RecvOutcome.msg { User := "ClientUser", Message := "hello" },
          RecvOutcome.fail GoError.EOF] (fun _ => some (GoError.other "broken pipe")) 0
      = (Outcome.returned (some (GoError.other "broken pipe")), 2,
          [Event.span (SpanEvent.start 0 "ChatService" Ctx.streamContext "Chat"),
            Event.log "Client connected for chat",
            Event.recv (RecvOutcome.msg { User := "ClientUser", Message := "hello" }),
            Event.span (SpanEvent.start 1 "ChatService" Ctx.background "ReceiveMessage"),
            Event.span (SpanEvent.setAttributes 1 "enduser.id" "ClientUser"),
            Event.log "Received message from ClientUser: hello",
            Event.send { User := "Server", Message := "Echo: hello" }
              (some (GoError.other "broken pipe")),
            Event.span (SpanEvent.recordError 1 (GoError.other "broken pipe")),
            Event.log "Error sending message: broken pipe",
            Event.span (SpanEvent.finish 1),
            Event.span (SpanEvent.finish 0)]) := by
  decide

/-- The run of `Chat` when the first `Recv` fails with a transport error. -/
theorem Chat_run_recv_fails :
    Chat otelTracer [RecvOutcome.fail (GoError.other "connection reset")] (fun _ => none) 0
      = (Outcome.returned (some (GoError.other "connection reset")), 1,
          [Event.span (SpanEvent.start 0 "ChatService" Ctx.streamContext "Chat"),
            Event.log "Client connected for chat",
            Event.recv (RecvOutcome.fail (GoError.other "connection reset")),
            Event.span (SpanEvent.recordError 0 (GoError.other "connection reset")),
            Event.log "Error receiving message: connection reset",
            Event.span (SpanEvent.finish 0)]) := by
  decide

/-- The run of `sendMessages` on the lines "a", "exit", "b". -/
theorem sendMessages_run_exit :
    sendMessages otelTracer ["a", "exit", "b"] (fun _ => none) 0
      = (1,
          [Event.log "Enter message (or \x27exit\x27 to quit): ",
            Event.scan (some "a"),
            Event.span (SpanEvent.start 0 "ChatClient" Ctx.background "SendMessage"),
            Event.span (SpanEvent.setAttributes 0 "enduser.id" "ClientUser"),
            Event.send { User := "ClientUser", Message := "a" } none,
            Event.span (SpanEvent.finish 0),
            Event.log "Enter message (or \x27exit\x27 to quit): ",
            Event.scan (some "exit")]) := by
  decide

/-- The run of `receiveMessages` on one reply followed by a transport error. -/
theorem receiveMessages_run_error :
    receiveMessages otelTracer
        [RecvOutcome.msg { User := "Server", Message := "Echo: a" },
          RecvOutcome.fail (GoError.other "connection reset")] 0
      = (true, 1,
          [Event.recv (RecvOutcome.msg { User := "Server", Message := "Echo: a" }),
            Event.span (SpanEvent.start 0 "ChatClient" Ctx.background "ReceiveMessage"),
            Event.span (SpanEvent.setAttributes 0 "enduser.id" "Server"),
            Event.log "Received message from Server: Echo: a",
            Event.span (SpanEvent.finish 0),
            Event.recv (RecvOutcome.fail (GoError.other "connection reset")),
            Event.log "Error receiving message: connection reset",
            Event.closeWaitc]) := by
  decide

/-! ## The claims at concrete inputs -/

/-- C1 at the message "hello": the call on the stream after its `Recv` is the `Send`
of "Echo: hello" from "Server". -/
theorem C1_reply_is_echo_witness :
    ∃ res, (streamOps (Chat otelTracer
        [RecvOutcome.msg { User := "ClientUser", Message := "hello" },
          RecvOutcome.fail GoError.EOF] (fun _ => none) 0).2.2)[0 + 1]?
      = some (Event.send { User := "Server", Message := "Echo: " ++ "hello" } res) :=
  (C1_reply_is_echo otelTracer
    [RecvOutcome.msg { User := "ClientUser", Message := "hello" },
      RecvOutcome.fail GoError.EOF] (fun _ => none) 0).1 0
    { User := "ClientUser", Message := "hello" } (by decide)

/-- C3 at the script of three messages whose second `Send` fails: `Chat` returns that
error, its calls on the stream end with the failed `Send`, and the third message is
never received. -/
theorem C3_stops_at_terminal_witness :
    (Chat otelTracer
        [RecvOutcome.msg { User := "ClientUser", Message := "a" },
          RecvOutcome.msg { User := "ClientUser", Message := "b" },
          RecvOutcome.msg { User := "ClientUser", Message := "c" }]
        (fun k => if k = 1 then some (GoError.other "broken pipe") else none) 0).1
      = Outcome.returned (some (GoError.other "broken pipe"))
    ∧ streamOps (Chat otelTracer
        [RecvOutcome.msg { User := "ClientUser", Message := "a" },
          RecvOutcome.msg { User := "ClientUser", Message := "b" },
          RecvOutcome.msg { User := "ClientUser", Message := "c" }]
        (fun k => if k = 1 then some (GoError.other "broken pipe") else none) 0).2.2
      = [Event.recv (RecvOutcome.msg { User := "ClientUser", Message := "a" }),
          Event.send { User := "Server", Message := "Echo: a" } none,
          Event.recv (RecvOutcome.msg { User := "ClientUser", Message := "b" }),
          Event.send { User := "Server", Message := "Echo: b" }
            (some (GoError.other "broken pipe"))] := by
  simpa using (C3_stops_at_terminal otelTracer
      [RecvOutcome.msg { User := "ClientUser", Message := "a" },
        RecvOutcome.msg { User := "ClientUser", Message := "b" },
        RecvOutcome.msg { User := "ClientUser", Message := "c" }]
      (fun k => if k = 1 then some (GoError.other "broken pipe") else none) 0).2.2.2.2.2.1
    [{ User := "ClientUser", Message := "a" }] { User := "ClientUser", Message := "b" }
    [RecvOutcome.msg { User := "ClientUser", Message := "c" }]
    (GoError.other "broken pipe") (by simp) (by simp) (by simp)

/-- C4 at the lines "a", "b", "c" when the second `Send` fails: fewer messages are
sent than there are lines, and the last `Send` attempted is the one that failed. -/
theorem C4_sends_lines_before_exit_witness :
    ∃ e, (fun k => if k = 1 then some (GoError.other "broken pipe") else none)
        ((sendAttempts (sendMessages otelTracer ["a", "b", "c"]
          (fun k => if k = 1 then some (GoError.other "broken pipe") else none) 0).2).length - 1)
        = some e
      ∧ 1 ≤ (sendAttempts (sendMessages otelTracer ["a", "b", "c"]
          (fun k => if k = 1 then some (GoError.other "broken pipe") else none) 0).2).length :=
  (C4_sends_lines_before_exit otelTracer ["a", "b", "c"]
    (fun k => if k = 1 then some (GoError.other "broken pipe") else none) 0).2.2.2.1
    (by decide)

/-- C5 at the execution `dropRun`: `CloseSend` is called. -/
theorem C5_closeSend_then_wait_witness :
    (Tid.main, Event.closeSend none) ∈ dropRun :=
  (C5_closeSend_then_wait dropSchedule ["a", "b", "c"] (fun _ => none) none
    [RecvOutcome.msg { User := "Server", Message := "Echo: a" },
      RecvOutcome.msg { User := "Server", Message := "Echo: b" },
      RecvOutcome.fail (GoError.other "transport is closing")]).2.1 (by decide)

/-- C6 at two replies followed by a transport error: the last event of
`receiveMessages` is the closing of `waitc`. -/
theorem C6_receive_until_terminal_witness :
    (receiveMessages otelTracer
        [RecvOutcome.msg { User := "Server", Message := "Echo: a" },
          RecvOutcome.msg { User := "Server", Message := "Echo: b" },
          RecvOutcome.fail (GoError.other "transport is closing")] 0).2.2.getLast?
      = some Event.closeWaitc :=
  (C6_receive_until_terminal otelTracer
    [RecvOutcome.msg { User := "Server", Message := "Echo: a" },
      RecvOutcome.msg { User := "Server", Message := "Echo: b" },
      RecvOutcome.fail (GoError.other "transport is closing")] 0).2.2.2.1 (by decide)

/-- C7 at a run whose `Send` fails: when `Chat` has returned the error, the span
"Chat" has been ended once, by the last event, and no span is open. -/
theorem C7_spans_ended_once_witness :
    endsOf 0 (Chat otelTracer [RecvOutcome.msg { User := "ClientUser", Message := "hello" }]
        (fun _ => some (GoError.other "broken pipe")) 0).2.2 = 1
    ∧ (Chat otelTracer [RecvOutcome.msg { User := "ClientUser", Message := "hello" }]
        (fun _ => some (GoError.other "broken pipe")) 0).2.2.getLast?
      = some (Event.span (SpanEvent.finish 0))
    ∧ (∀ s, endsOf s (Chat otelTracer
          [RecvOutcome.msg { User := "ClientUser", Message := "hello" }]
          (fun _ => some (GoError.other "broken pipe")) 0).2.2
        = startsOf s (Chat otelTracer
          [RecvOutcome.msg { User := "ClientUser", Message := "hello" }]
          (fun _ => some (GoError.other "broken pipe")) 0).2.2)
    ∧ openSpans (Chat otelTracer [RecvOutcome.msg { User := "ClientUser", Message := "hello" }]
        (fun _ => some (GoError.other "broken pipe")) 0).2.2 = 0 :=
  (C7_spans_ended_once [RecvOutcome.msg { User := "ClientUser", Message := "hello" }]
    (fun _ => some (GoError.other "broken pipe")) 0).2.2.2.2.2.1
    (some (GoError.other "broken pipe")) (by decide)

/-- C8 at a run of `Chat` whose second `Recv` fails with a transport error: the error
is recorded on span 0 and then span 0 is ended. -/
theorem C8_error_recorded_before_end_witness :
    ∃ pre, (Chat otelTracer
        [RecvOutcome.msg { User := "ClientUser", Message := "hello" },
          RecvOutcome.fail (GoError.other "connection reset")] (fun _ => none) 0).2.2
      = Event.span (SpanEvent.start 0 "ChatService" Ctx.streamContext "Chat") :: pre
        ++ [Event.recv (RecvOutcome.fail (GoError.other "connection reset")),
          Event.span (SpanEvent.recordError 0 (GoError.other "connection reset")),
          Event.log ("Error receiving message: " ++ (GoError.other "connection reset").Error),
          Event.span (SpanEvent.finish 0)]
      ∧ NoRecordError pre ∧ endsOf 0 pre = 0 :=
  (C8_error_recorded_before_end.1
    [RecvOutcome.msg { User := "ClientUser", Message := "hello" },
      RecvOutcome.fail (GoError.other "connection reset")] (fun _ => none) 0).1
    (GoError.other "connection reset") (by decide) (by decide)

/-- C9, amended, at the execution `dropRun`: the receiver makes the failing `Recv`,
logs the error and closes `waitc`. -/
theorem C9_receive_error_not_recorded_witness :
    (Tid.receiver, Event.recv (RecvOutcome.fail (GoError.other "transport is closing")))
        ∈ dropRun
    ∧ (Tid.receiver, Event.log (if GoError.other "transport is closing" = GoError.EOF
          then "Server closed the stream"
          else "Error receiving message: " ++ (GoError.other "transport is closing").Error))
        ∈ dropRun
    ∧ (Tid.receiver, Event.closeWaitc) ∈ dropRun :=
  (C9_receive_error_not_recorded dropSchedule ["a", "b", "c"] (fun _ => none) none
    [RecvOutcome.msg { User := "Server", Message := "Echo: a" },
      RecvOutcome.msg { User := "Server", Message := "Echo: b" },
      RecvOutcome.fail (GoError.other "transport is closing")]).2.2.2.2.2
    (GoError.other "transport is closing") (by decide) (by decide)

end GrpcStreamOtel
